import Mathlib

/-!
Verification development for the Butler mail-hygiene extension
(`src/background.js`).  The JavaScript source is shallowly embedded as
pure Lean functions: remote-API calls (OWA fetches, folder lookups,
moves, local storage) are abstracted as environment records whose fields
carry the values those calls would return, and the orchestration logic
that consumes them is translated line by line.  Log entries are modelled
as the literal message strings the code pushes (the `new Date()`
timestamp prefixes, being wall-clock effects, are dropped).
-/

namespace Butler

/-! ### Constants (src/background.js lines 10-45) -/

def MAX_EMAILS_TO_PROCESS : Nat := 2000

def MAX_FOLDERS_TO_PROCESS : Nat := 30

def MIN_EMAILS_PER_FOLDER : Nat := 50

def MAX_EMAILS_PER_FOLDER : Nat := 2000

def FINDITEM_PAGE_SIZE : Nat := 200

def DEFAULT_EMAIL_ITERATIONS : Nat := 20

/-- Double-quote character, used to build log strings faithfully. -/
def dq : String := String.singleton (Char.ofNat 34)

/-- Normalized message record produced by `fetchInboxMessages` /
`fetchFolderMessagesById` (src/background.js lines 740-755).  Fields the
modelled logic never consumes (preview, importance, isRead, recipients)
are omitted.  JavaScript `null`/`undefined`/missing string fields are
represented by `""` (both are falsy, and the code only ever tests
falsiness or uses the value as a string). -/
structure Msg where
  id : String
  changeKey : String := ""
  subject : String := ""
  sender : String := ""
  messageId : String := ""
  inReplyTo : List String := []
  references : List String := []
  sourceFolder : String := ""
deriving Repr, DecidableEq

/-! ### calculatePerFolderLimit (src/background.js lines 1020-1025) -/

def calculatePerFolderLimit (folderCount : Nat) : Nat :=
  let safeFolderCount := if 0 < folderCount then folderCount else 1
  let raw := MAX_EMAILS_TO_PROCESS / safeFolderCount
  min MAX_EMAILS_PER_FOLDER (max MIN_EMAILS_PER_FOLDER raw)

/-! ### Multi-folder aggregator (src/background.js lines 1027-1104)

`fetchInboxMessages` / `fetchFolderMessagesById` are remote calls; the
environment field `fetchPage` returns the normalized page they would
produce (or the error they would throw).  `listInboxSubfolders` is the
`subfolders` field (it never throws: all failures yield `[]`). -/

structure FolderSpec where
  distinguished : Bool
  id : String
  name : String
deriving Repr, DecidableEq

structure AggEnv where
  subfolders : List (String × String)
  fetchPage : FolderSpec → Nat → Nat → Except String (List Msg)

def aggFolders (env : AggEnv) (includeSubfolders : Bool) : List FolderSpec :=
  let base : List FolderSpec := [⟨true, "inbox", "Inbox"⟩]
  if includeSubfolders then
    let remainingSlots := MAX_FOLDERS_TO_PROCESS - 1
    base ++ (env.subfolders.take remainingSlots).map
      (fun f => ⟨false, f.1, if f.2 = "" then "(Unnamed)" else f.2⟩)
  else base

/-- `const perFolderMax = Math.min(MAX_EMAILS_PER_FOLDER, MAX_EMAILS_TO_PROCESS)`
(line 1042). -/
def perFolderMax : Nat := min MAX_EMAILS_PER_FOLDER MAX_EMAILS_TO_PROCESS

/-- `Math.ceil(perFolderMax / FINDITEM_PAGE_SIZE)` (line 1043). -/
def maxPagesPerFolder : Nat :=
  (perFolderMax + FINDITEM_PAGE_SIZE - 1) / FINDITEM_PAGE_SIZE

/-- Aggregation state: the accumulated `messages` array, the `seenItemIds`
set (modelled as the list of ids added so far), and a ghost `stream`
recording every fetched page item in folder-then-page-then-item order. -/
structure AggState where
  messages : List Msg
  seen : List String
  stream : List Msg
deriving Repr

/-- The inner `for (const msg of pageMessages)` loop (lines 1073-1080):
skip items with falsy/non-string id, skip already-seen ids, otherwise
record and push; stop once the global cap is reached. -/
def processItems (s : AggState) : List Msg → AggState
  | [] => s
  | m :: rest =>
    if m.id = "" then processItems s rest
    else if s.seen.contains m.id then processItems s rest
    else
      let s2 : AggState :=
        { s with messages := s.messages ++ [m], seen := m.id :: s.seen }
      if MAX_EMAILS_TO_PROCESS ≤ s2.messages.length then s2
      else processItems s2 rest

structure FolderStat where
  folder : String
  fetched : Nat
  included : Nat
  error : Option String := none
  truncated : Option Bool := none
deriving Repr, DecidableEq

/-- The per-folder `while` paging loop (lines 1052-1089).  The fuel
argument plays the role of `pageIndex < maxPagesPerFolder` (it is
initialised to `maxPagesPerFolder` and decremented once per page).
Returns the new state, `fetchedFromFolder`, `includedFromFolder` and the
`pageError` if any. -/
def folderPages (env : AggEnv) (folder : FolderSpec) :
    Nat → AggState → Nat → Nat → Nat → AggState × Nat × Nat × Option String
  | 0, s, fetched, included, _offset => (s, fetched, included, none)
  | fuel + 1, s, fetched, included, offset =>
    if s.messages.length < MAX_EMAILS_TO_PROCESS ∧ fetched < perFolderMax then
      let pageSize := min FINDITEM_PAGE_SIZE
        (min (perFolderMax - fetched) (MAX_EMAILS_TO_PROCESS - s.messages.length))
      if pageSize = 0 then (s, fetched, included, none)
      else
        match env.fetchPage folder pageSize offset with
        | .error e => (s, fetched, included, some e)
        | .ok pageMessages =>
          let s1 : AggState := { s with stream := s.stream ++ pageMessages }
          let s2 := processItems s1 pageMessages
          let fetched2 := fetched + pageMessages.length
          let included2 := included + (s2.messages.length - s.messages.length)
          if pageMessages.length < pageSize then (s2, fetched2, included2, none)
          else folderPages env folder fuel s2 fetched2 included2 (offset + pageSize)
    else (s, fetched, included, none)

/-- The `for (const folder of folders)` loop (lines 1045-1101). -/
def foldFolders (env : AggEnv) :
    List FolderSpec → AggState → List FolderStat → AggState × List FolderStat
  | [], s, stats => (s, stats)
  | folder :: rest, s, stats =>
    let r := folderPages env folder maxPagesPerFolder s 0 0 0
    let s2 := r.1
    let fetched := r.2.1
    let included := r.2.2.1
    let stat : FolderStat :=
      match r.2.2.2 with
      | some e =>
        { folder := folder.name, fetched := fetched, included := included, error := some e }
      | none =>
        { folder := folder.name, fetched := fetched, included := included,
          truncated := some (decide (perFolderMax ≤ fetched) ||
            decide (MAX_EMAILS_TO_PROCESS ≤ s2.messages.length)) }
    let stats2 := stats ++ [stat]
    if MAX_EMAILS_TO_PROCESS ≤ s2.messages.length then (s2, stats2)
    else foldFolders env rest s2 stats2

structure FetchOutcome where
  messages : List Msg
  folderStats : List FolderStat
  stream : List Msg
deriving Repr

def fetchMessagesAcrossInboxAndSubfolders (env : AggEnv) (includeSubfolders : Bool) :
    FetchOutcome :=
  let r := foldFolders env (aggFolders env includeSubfolders) ⟨[], [], []⟩ []
  ⟨r.1.messages, r.2, r.1.stream⟩

/-! ### Claim C1 -/

/-- Concrete message used in counterexample environments. -/
def mkAggMsg (i : Nat) : Msg := { id := "m" ++ toString i }

/-- Environment in which the aggregator scans 30 folders (inbox plus 29
subfolders); the inbox holds 67 distinct messages and the subfolders are
empty. -/
def env30 : AggEnv :=
  { subfolders := (List.range 29).map (fun i => ("sf" ++ toString i, "Sub" ++ toString i)),
    fetchPage := fun folder _pageSize offset =>
      if folder.id = "inbox" ∧ offset = 0 then .ok ((List.range 67).map mkAggMsg)
      else .ok [] }

set_option maxRecDepth 100000 in
/-- C1 counterexample: the per-folder cap the aggregator applies is the
constant `perFolderMax` (line 1042), not `calculatePerFolderLimit`: at a
folder count of 2 the two differ, and in a concrete 30-folder run the
inbox contributes 67 included messages, exceeding
`calculatePerFolderLimit 30 = 66`. -/
theorem C1_counterexample :
    perFolderMax ≠ calculatePerFolderLimit 2 ∧
    (aggFolders env30 true).length = 30 ∧
    calculatePerFolderLimit 30 = 66 ∧
    ((fetchMessagesAcrossInboxAndSubfolders env30 true).folderStats.map
        (fun st => (st.folder, st.included))).head? = some ("Inbox", 67) := by
  decide

/-- C1 (amended): `calculatePerFolderLimit` does compute
`max(MIN_EMAILS_PER_FOLDER, min(MAX_EMAILS_PER_FOLDER, floor(MAX_EMAILS_TO_PROCESS / n)))`,
but the aggregator never applies it: the cap it applies when fetching is
the folder-count-independent `perFolderMax =
min(MAX_EMAILS_PER_FOLDER, MAX_EMAILS_TO_PROCESS) = 2000`, which is
strictly larger than the formula's value for every folder count of at
least 2. -/
theorem C1_per_folder_cap_amended (n : Nat) (h : 1 ≤ n) :
    calculatePerFolderLimit n =
      max MIN_EMAILS_PER_FOLDER
        (min MAX_EMAILS_PER_FOLDER (MAX_EMAILS_TO_PROCESS / n)) ∧
    perFolderMax = 2000 ∧
    (2 ≤ n → calculatePerFolderLimit n < perFolderMax) := by
  have hn : 0 < n := h
  refine ⟨?_, rfl, ?_⟩
  · simp only [calculatePerFolderLimit, if_pos hn,
      MIN_EMAILS_PER_FOLDER, MAX_EMAILS_PER_FOLDER]
    omega
  · intro h2
    have hdiv : MAX_EMAILS_TO_PROCESS / n ≤ MAX_EMAILS_TO_PROCESS / 2 :=
      Nat.div_le_div_left h2 (by omega)
    simp only [calculatePerFolderLimit, if_pos hn, perFolderMax,
      MIN_EMAILS_PER_FOLDER, MAX_EMAILS_PER_FOLDER, MAX_EMAILS_TO_PROCESS] at *
    omega

theorem C1_witness :
    calculatePerFolderLimit 30 =
      max MIN_EMAILS_PER_FOLDER
        (min MAX_EMAILS_PER_FOLDER (MAX_EMAILS_TO_PROCESS / 30)) ∧
    perFolderMax = 2000 ∧
    (2 ≤ 30 → calculatePerFolderLimit 30 < perFolderMax) :=
  C1_per_folder_cap_amended 30 (by decide)

/-! ### Claim C5: aggregator invariants -/

theorem find?_append_some {α : Type} (p : α → Bool) (l l' : List α) (a : α)
    (h : l.find? p = some a) : (l ++ l').find? p = some a := by
  induction l with
  | nil => simp at h
  | cons x xs ih =>
    by_cases hx : p x
    · rw [List.find?_cons_of_pos _ hx] at h
      rw [List.cons_append, List.find?_cons_of_pos _ hx]
      exact h
    · rw [List.find?_cons_of_neg _ (by simpa using hx)] at h
      rw [List.cons_append, List.find?_cons_of_neg _ (by simpa using hx)]
      exact ih h

theorem find?_append_skip {α : Type} (p : α → Bool) (l l' : List α)
    (h : ∀ a ∈ l, p a = false) : (l ++ l').find? p = l'.find? p := by
  induction l with
  | nil => rfl
  | cons x xs ih =>
    have hx := h x (List.mem_cons_self x xs)
    rw [List.cons_append, List.find?_cons_of_neg _ (by simp [hx])]
    exact ih (fun a ha => h a (List.mem_cons_of_mem _ ha))

/-- Invariant of the aggregation state: distinct ids, global cap
respected, each kept record is the first record bearing its id in the
ingestion stream, `seenItemIds` is exactly the set of kept ids, and all
kept ids are non-empty. -/
def AggInv (s : AggState) : Prop :=
  (s.messages.map Msg.id).Nodup ∧
  s.messages.length ≤ MAX_EMAILS_TO_PROCESS ∧
  (∀ m ∈ s.messages, s.stream.find? (fun x => x.id == m.id) = some m) ∧
  (∀ a, a ∈ s.seen ↔ a ∈ s.messages.map Msg.id) ∧
  (∀ m ∈ s.messages, m.id ≠ "")

/-- Every valid item of the stream has been examined (holds between
pages; broken only when the global cap cut a page short, after which the
aggregator stops fetching). -/
def AggDone (s : AggState) : Prop :=
  ∀ r ∈ s.stream, r.id ≠ "" → r.id ∈ s.seen

theorem processItems_spec :
    ∀ (l : List Msg) (s : AggState) (pre : List Msg),
      s.stream = pre ++ l →
      (∀ r ∈ pre, r.id ≠ "" → r.id ∈ s.seen) →
      AggInv s →
      s.messages.length < MAX_EMAILS_TO_PROCESS →
      AggInv (processItems s l) ∧
      (processItems s l).stream = s.stream ∧
      ((processItems s l).messages.length < MAX_EMAILS_TO_PROCESS →
        AggDone (processItems s l)) := by
  intro l
  induction l with
  | nil =>
    intro s pre hstream hpre hinv _hlen
    rw [processItems]
    refine ⟨hinv, rfl, fun _ => ?_⟩
    intro r hr hne
    rw [hstream, List.append_nil] at hr
    exact hpre r hr hne
  | cons m rest ih =>
    intro s pre hstream hpre hinv hlen
    have hstream2 : s.stream = (pre ++ [m]) ++ rest := by
      rw [hstream, List.append_assoc, List.singleton_append]
    by_cases h1 : m.id = ""
    · rw [processItems, if_pos h1]
      exact ih s (pre ++ [m]) hstream2
        (fun r hr hne => by
          rcases List.mem_append.1 hr with hr' | hr'
          · exact hpre r hr' hne
          · rw [List.mem_singleton.1 hr'] at hne; exact absurd h1 hne)
        hinv hlen
    · by_cases h2 : m.id ∈ s.seen
      · rw [processItems, if_neg h1, if_pos (List.elem_iff.2 h2)]
        exact ih s (pre ++ [m]) hstream2
          (fun r hr hne => by
            rcases List.mem_append.1 hr with hr' | hr'
            · exact hpre r hr' hne
            · rw [List.mem_singleton.1 hr']; exact h2)
          hinv hlen
      · have h2c : ¬ (s.seen.contains m.id = true) := fun hc => h2 (List.elem_iff.1 hc)
        rw [processItems, if_neg h1, if_neg h2c]
        obtain ⟨hnodup, _hle, hfind, hseen, hvalid⟩ := hinv
        have hnotin : m.id ∉ s.messages.map Msg.id := fun hmem => h2 ((hseen m.id).2 hmem)
        set s2 : AggState :=
          { s with messages := s.messages ++ [m], seen := m.id :: s.seen } with hs2
        have hfind2 : s.stream.find? (fun x => x.id == m.id) = some m := by
          rw [hstream, find?_append_skip]
          · exact List.find?_cons_of_pos _ (by simp)
          · intro r hr
            by_cases hre : r.id = m.id
            · exact absurd (hpre r hr (hre ▸ h1)) (hre ▸ h2)
            · simpa using hre
        have hinv2 : AggInv s2 := by
          refine ⟨?_, ?_, ?_, ?_, ?_⟩
          · simp only [hs2, List.map_append, List.map_cons, List.map_nil]
            simp [List.nodup_append, hnodup, hnotin]
          · simp only [hs2, List.length_append, List.length_cons, List.length_nil]
            omega
          · intro m' hm'
            rcases List.mem_append.1 hm' with hm' | hm'
            · exact hfind m' hm'
            · rw [List.mem_singleton.1 hm']; exact hfind2
          · intro a
            simp only [hs2, List.mem_cons, List.map_append, List.map_cons, List.map_nil,
              List.mem_append, List.mem_singleton]
            rw [hseen a]
            tauto
          · intro m' hm'
            rcases List.mem_append.1 hm' with hm' | hm'
            · exact hvalid m' hm'
            · rw [List.mem_singleton.1 hm']; exact h1
        by_cases h3 : MAX_EMAILS_TO_PROCESS ≤ s2.messages.length
        · rw [if_pos h3]
          refine ⟨hinv2, rfl, fun hlt => ?_⟩
          exact absurd h3 (by omega)
        · rw [if_neg h3]
          exact ih s2 (pre ++ [m]) hstream2
            (fun r hr hne => by
              rcases List.mem_append.1 hr with hr' | hr'
              · exact List.mem_cons_of_mem _ (hpre r hr' hne)
              · rw [List.mem_singleton.1 hr']; exact List.mem_cons_self _ _)
            hinv2 (by omega)

/-- The invariant packaged with the between-pages completeness fact. -/
def AggH (s : AggState) : Prop :=
  AggInv s ∧ (s.messages.length < MAX_EMAILS_TO_PROCESS → AggDone s)

theorem folderPages_spec (env : AggEnv) (folder : FolderSpec) :
    ∀ (fuel : Nat) (s : AggState) (fetched included offset : Nat),
      AggH s → AggH (folderPages env folder fuel s fetched included offset).1 := by
  intro fuel
  induction fuel with
  | zero => intro s f i o hH; exact hH
  | succ fuel ih =>
    intro s f i o hH
    rw [folderPages]
    by_cases hc : s.messages.length < MAX_EMAILS_TO_PROCESS ∧ f < perFolderMax
    · rw [if_pos hc]
      dsimp only
      set ps := min FINDITEM_PAGE_SIZE
        (min (perFolderMax - f) (MAX_EMAILS_TO_PROCESS - s.messages.length)) with hps
      by_cases hz : ps = 0
      · rw [if_pos hz]; exact hH
      · rw [if_neg hz]
        cases hfp : env.fetchPage folder ps o with
        | error e => exact hH
        | ok page =>
          dsimp only
          set s1 : AggState := { s with stream := s.stream ++ page } with hs1
          have hinv1 : AggInv s1 := by
            obtain ⟨hnodup, hle, hfind, hseen, hvalid⟩ := hH.1
            exact ⟨hnodup, hle,
              fun m hm => find?_append_some _ _ _ _ (hfind m hm), hseen, hvalid⟩
          have hspec := processItems_spec page s1 s.stream rfl
            (fun r hr hne => hH.2 hc.1 r hr hne) hinv1 hc.1
          set s2 := processItems s1 page with hs2
          have hH2 : AggH s2 := ⟨hspec.1, hspec.2.2⟩
          by_cases hend : page.length < ps
          · rw [if_pos hend]; exact hH2
          · rw [if_neg hend]; exact ih s2 (f + page.length)
              (i + (s2.messages.length - s.messages.length)) (o + ps) hH2
    · rw [if_neg hc]; exact hH

theorem foldFolders_spec (env : AggEnv) :
    ∀ (folders : List FolderSpec) (s : AggState) (stats : List FolderStat),
      AggH s → AggH (foldFolders env folders s stats).1 := by
  intro folders
  induction folders with
  | nil => intro s stats hH; exact hH
  | cons folder rest ih =>
    intro s stats hH
    rw [foldFolders]
    have hH2 := folderPages_spec env folder maxPagesPerFolder s 0 0 0 hH
    by_cases hfull :
        MAX_EMAILS_TO_PROCESS ≤ (folderPages env folder maxPagesPerFolder s 0 0 0).1.messages.length
    · rw [if_pos hfull]; exact hH2
    · rw [if_neg hfull]; exact ih _ _ hH2

theorem fetchAll_H (env : AggEnv) (incl : Bool) :
    AggH (foldFolders env (aggFolders env incl) ⟨[], [], []⟩ []).1 :=
  foldFolders_spec env _ _ _
    ⟨⟨List.nodup_nil, by simp [MAX_EMAILS_TO_PROCESS], by simp, by simp, by simp⟩,
      fun _ => by intro r hr; simp at hr⟩

theorem fetchAll_nodup_ids (env : AggEnv) (incl : Bool) :
    ((fetchMessagesAcrossInboxAndSubfolders env incl).messages.map Msg.id).Nodup :=
  (fetchAll_H env incl).1.1

theorem fetchAll_length_le (env : AggEnv) (incl : Bool) :
    (fetchMessagesAcrossInboxAndSubfolders env incl).messages.length ≤
      MAX_EMAILS_TO_PROCESS :=
  (fetchAll_H env incl).1.2.1

theorem fetchAll_first_occurrence (env : AggEnv) (incl : Bool) :
    ∀ m ∈ (fetchMessagesAcrossInboxAndSubfolders env incl).messages,
      (fetchMessagesAcrossInboxAndSubfolders env incl).stream.find?
        (fun x => x.id == m.id) = some m :=
  (fetchAll_H env incl).1.2.2.1

/-- C5: for every run of the multi-folder aggregator, the returned
messages carry pairwise-distinct ids; whenever an id occurs in the fetch
stream (all fetched page items in folder-then-page-then-item order), the
record kept for that id is the stream's first record bearing it; and the
number of returned messages never exceeds `MAX_EMAILS_TO_PROCESS`. -/
theorem C5_global_dedup_and_cap (env : AggEnv) (incl : Bool) :
    ((fetchMessagesAcrossInboxAndSubfolders env incl).messages.map Msg.id).Nodup ∧
    (fetchMessagesAcrossInboxAndSubfolders env incl).messages.length ≤
      MAX_EMAILS_TO_PROCESS ∧
    (∀ m ∈ (fetchMessagesAcrossInboxAndSubfolders env incl).messages,
      (fetchMessagesAcrossInboxAndSubfolders env incl).stream.find?
        (fun x => x.id == m.id) = some m) :=
  ⟨fetchAll_nodup_ids env incl, fetchAll_length_le env incl,
    fetchAll_first_occurrence env incl⟩

/-! ### Reply-graph analysis (src/background.js lines 1656-1675) -/

/-- The `repliedToIds` set, modelled as the flat list of all
`In-Reply-To` and `References` entries (only membership is ever
queried). -/
def repliedToIdsList (ms : List Msg) : List String :=
  ms.flatMap (fun m => m.inReplyTo ++ m.references)

/-- `messages.filter(msg => msg.messageId && repliedToIds.has(msg.messageId))`
(lines 1672-1675). -/
def toArchiveOf (ms : List Msg) : List Msg :=
  ms.filter (fun m => !(m.messageId == "") && (repliedToIdsList ms).contains m.messageId)

/-- C2: a record is selected for archiving iff its messageId is non-empty
and belongs to the union of every record's inReplyTo and references
lists; in particular a record with empty messageId is never selected. -/
theorem C2_superseded_iff (ms : List Msg) (m : Msg) :
    (m ∈ toArchiveOf ms ↔
      m ∈ ms ∧ m.messageId ≠ "" ∧
        m.messageId ∈ ms.flatMap (fun x => x.inReplyTo ++ x.references)) ∧
    (m.messageId = "" → m ∉ toArchiveOf ms) := by
  have hiff : m ∈ toArchiveOf ms ↔
      m ∈ ms ∧ m.messageId ≠ "" ∧
        m.messageId ∈ ms.flatMap (fun x => x.inReplyTo ++ x.references) := by
    simp only [toArchiveOf, List.mem_filter, Bool.and_eq_true, Bool.not_eq_true',
      beq_eq_false_iff_ne, ne_eq, repliedToIdsList, List.elem_iff, and_assoc]
  exact ⟨hiff, fun hempty hmem => ((hiff.1 hmem).2.1 hempty)⟩

def msgA : Msg := { id := "idA", subject := "A", messageId := "<a>" }

def msgB1 : Msg := { id := "idB1", subject := "B1", messageId := "<b>" }

def msgB2 : Msg := { id := "idB2", subject := "B2", messageId := "<b>" }

def msgC : Msg := { id := "idC", subject := "C", messageId := "<c>", inReplyTo := ["<a>"] }

theorem C2_witness :
    (msgA ∈ toArchiveOf [msgA, msgC] ↔
      msgA ∈ [msgA, msgC] ∧ msgA.messageId ≠ "" ∧
        msgA.messageId ∈ [msgA, msgC].flatMap (fun x => x.inReplyTo ++ x.references)) ∧
    (msgA.messageId = "" → msgA ∉ toArchiveOf [msgA, msgC]) :=
  C2_superseded_iff [msgA, msgC] msgA

/-! ### Duplicate grouping (src/background.js lines 1682-1707)

`emailGroups` is a JavaScript `Map` keyed by `messageId`; `Map` iterates
keys in first-insertion order, and each key's array accumulates records
in ingestion order.  It is modelled as an association list with the same
two properties. -/

def addToGroups (groups : List (String × List Msg)) (mid : String) (m : Msg) :
    List (String × List Msg) :=
  match groups with
  | [] => [(mid, [m])]
  | g :: rest => if g.1 = mid then (g.1, g.2 ++ [m]) :: rest else g :: addToGroups rest mid m

def emailGroupsList (ms : List Msg) : List (String × List Msg) :=
  ms.foldl (fun acc m => if m.messageId = "" then acc else addToGroups acc m.messageId m) []

def groupLookup (groups : List (String × List Msg)) (mid : String) : Option (List Msg) :=
  (groups.find? (fun g => g.1 == mid)).map (fun g => g.2)

/-- Groups holding more than one record (the `emails.length > 1` test). -/
def dupGroupsOf (ms : List Msg) : List (String × List Msg) :=
  (emailGroupsList ms).filter (fun g => 1 < g.2.length)

/-- `duplicateCount` (line 1694-1698). -/
def duplicateCountOf (ms : List Msg) : Nat :=
  (dupGroupsOf ms).foldl (fun acc g => acc + (g.2.length - 1)) 0

theorem addToGroups_lookup (mid : String) (m : Msg) :
    ∀ (acc : List (String × List Msg)) (mid' : String),
      groupLookup (addToGroups acc mid m) mid' =
        if mid' = mid then some ((groupLookup acc mid).getD [] ++ [m])
        else groupLookup acc mid' := by
  intro acc
  induction acc with
  | nil =>
    intro mid'
    by_cases h : mid' = mid
    · simp [addToGroups, groupLookup, List.find?, h]
    · have hb : (mid == mid') = false := beq_eq_false_iff_ne.2 (fun hh => h hh.symm)
      simp [addToGroups, groupLookup, List.find?, h, hb]
  | cons g rest ih =>
    intro mid'
    by_cases hg : g.1 = mid
    · by_cases hm : mid' = mid
      · subst hm
        simp [addToGroups, groupLookup, List.find?, hg]
      · have hb : (mid == mid') = false := beq_eq_false_iff_ne.2 (fun hh => hm hh.symm)
        simp [addToGroups, groupLookup, List.find?, hg, if_neg hm, hb]
    · have hgb : (g.1 == mid) = false := beq_eq_false_iff_ne.2 hg
      by_cases hm : g.1 = mid'
      · have hne : mid' ≠ mid := fun h => hg (hm.trans h)
        simp [addToGroups, groupLookup, List.find?, if_neg hg, if_neg hne, hgb,
          (by simpa using hm : (g.1 == mid') = true)]
      · have h1 := ih mid'
        simp only [groupLookup] at h1
        simp [addToGroups, groupLookup, List.find?, if_neg hg, hgb,
          (by simpa using hm : (g.1 == mid') = false), h1]

theorem addToGroups_keys (mid : String) (m : Msg) :
    ∀ (acc : List (String × List Msg)),
      (addToGroups acc mid m).map Prod.fst =
        if mid ∈ acc.map Prod.fst then acc.map Prod.fst
        else acc.map Prod.fst ++ [mid] := by
  intro acc
  induction acc with
  | nil => simp [addToGroups]
  | cons g rest ih =>
    by_cases hg : g.1 = mid
    · simp [addToGroups, hg]
    · have hg' : ¬ mid = g.1 := fun h => hg h.symm
      have : mid ∈ (g :: rest).map Prod.fst ↔ mid ∈ rest.map Prod.fst := by
        simp [Ne.symm hg]
      by_cases hr : mid ∈ rest.map Prod.fst <;>
        simp [addToGroups, if_neg hg, if_neg hg', ih, hr, this]

theorem groupLookup_eq_none (acc : List (String × List Msg)) (mid : String) :
    groupLookup acc mid = none ↔ mid ∉ acc.map Prod.fst := by
  simp only [groupLookup, Option.map_eq_none', List.find?_eq_none, List.mem_map]
  constructor
  · rintro h ⟨g, hg, hk⟩
    exact absurd (h g hg) (by simp [hk])
  · intro h g hg
    by_cases hk : g.1 = mid
    · exact absurd ⟨g, hg, hk⟩ h
    · simpa using hk

/-- Invariant tying the grouping map to the processed prefix of the
message list. -/
def GroupsOk (acc : List (String × List Msg)) (processed : List Msg) : Prop :=
  (acc.map Prod.fst).Nodup ∧
  (∀ g ∈ acc, g.1 ≠ "") ∧
  (∀ mid, mid ≠ "" →
    groupLookup acc mid =
      (if processed.filter (fun m => m.messageId == mid) = [] then none
       else some (processed.filter (fun m => m.messageId == mid))))

theorem groupsOk_fold :
    ∀ (ms : List Msg) (acc : List (String × List Msg)) (processed : List Msg),
      GroupsOk acc processed →
      GroupsOk
        (ms.foldl
          (fun acc m => if m.messageId = "" then acc else addToGroups acc m.messageId m)
          acc)
        (processed ++ ms) := by
  intro ms
  induction ms with
  | nil => intro acc processed h; simpa using h
  | cons m rest ih =>
    intro acc processed h
    obtain ⟨hkeys, hne, hlook⟩ := h
    rw [List.foldl_cons]
    have hstep :
        GroupsOk (if m.messageId = "" then acc else addToGroups acc m.messageId m)
          (processed ++ [m]) := by
      by_cases hm : m.messageId = ""
      · rw [if_pos hm]
        refine ⟨hkeys, hne, fun mid hmid => ?_⟩
        have : (processed ++ [m]).filter (fun x => x.messageId == mid) =
            processed.filter (fun x => x.messageId == mid) := by
          rw [List.filter_append]
          simp [hm, Ne.symm hmid]
        rw [this]
        exact hlook mid hmid
      · rw [if_neg hm]
        have hfilter : ∀ mid : String,
            (processed ++ [m]).filter (fun x => x.messageId == mid) =
              processed.filter (fun x => x.messageId == mid) ++
                (if m.messageId = mid then [m] else []) := by
          intro mid
          rw [List.filter_append]
          by_cases hmm : m.messageId = mid <;> simp [hmm]
        refine ⟨?_, ?_, ?_⟩
        · rw [addToGroups_keys]
          by_cases hk : m.messageId ∈ acc.map Prod.fst
          · rwa [if_pos hk]
          · rw [if_neg hk]
            simp [List.nodup_append, hkeys, hk]
        · intro g hg
          by_cases hk : m.messageId ∈ acc.map Prod.fst
          · have := addToGroups_keys m.messageId m acc
            rw [if_pos hk] at this
            have hmem : g.1 ∈ (addToGroups acc m.messageId m).map Prod.fst :=
              List.mem_map_of_mem Prod.fst hg
            rw [this] at hmem
            obtain ⟨g', hg', hk'⟩ := List.mem_map.1 hmem
            exact hk' ▸ hne g' hg'
          · have := addToGroups_keys m.messageId m acc
            rw [if_neg hk] at this
            have hmem : g.1 ∈ (addToGroups acc m.messageId m).map Prod.fst :=
              List.mem_map_of_mem Prod.fst hg
            rw [this] at hmem
            rcases List.mem_append.1 hmem with hmem | hmem
            · obtain ⟨g', hg', hk'⟩ := List.mem_map.1 hmem
              exact hk' ▸ hne g' hg'
            · rw [List.mem_singleton.1 hmem]; exact hm
        · intro mid hmid
          rw [addToGroups_lookup]
          by_cases hmm : mid = m.messageId
          · subst hmm
            rw [if_pos rfl, hfilter m.messageId, if_pos rfl]
            have hnn : processed.filter (fun x => x.messageId == m.messageId) ++ [m] ≠ [] := by
              simp
            rw [if_neg hnn, hlook m.messageId hm]
            by_cases hemp : processed.filter (fun x => x.messageId == m.messageId) = []
            · rw [if_pos hemp]
              simp [hemp]
            · rw [if_neg hemp]
              simp
          · have hite : (if m.messageId = mid then [m] else ([] : List Msg)) = [] :=
              if_neg (fun h => hmm h.symm)
            rw [if_neg hmm, hfilter mid, hite, List.append_nil]
            exact hlook mid hmid
    have := ih _ (processed ++ [m]) hstep
    rwa [List.append_assoc, List.singleton_append] at this

theorem emailGroupsList_ok (ms : List Msg) : GroupsOk (emailGroupsList ms) ms := by
  have h := groupsOk_fold ms [] []
    ⟨List.nodup_nil, by simp, fun mid _ => by simp [groupLookup]⟩
  simpa [emailGroupsList] using h

theorem find?_key_of_mem_nodup :
    ∀ (acc : List (String × List Msg)) (mid : String) (l : List Msg),
      (acc.map Prod.fst).Nodup → (mid, l) ∈ acc →
      acc.find? (fun g => g.1 == mid) = some (mid, l) := by
  intro acc
  induction acc with
  | nil => intro mid l _ h; simp at h
  | cons g rest ih =>
    intro mid l hnodup hmem
    rcases List.mem_cons.1 hmem with hmem | hmem
    · rw [← hmem]
      exact List.find?_cons_of_pos _ (by simp)
    · have hk : g.1 ≠ mid := by
        intro hk
        have : g.1 ∈ rest.map Prod.fst := hk ▸ List.mem_map_of_mem Prod.fst hmem
        simp only [List.map_cons, List.nodup_cons] at hnodup
        exact hnodup.1 this
      rw [List.find?_cons_of_neg _ (by simpa using hk)]
      exact ih mid l (by simp only [List.map_cons, List.nodup_cons] at hnodup; exact hnodup.2)
        hmem

/-- Every entry of the grouping map is exactly the ingestion-order
sublist of messages bearing its key. -/
theorem groups_mem_eq_filter (ms : List Msg) (mid : String) (l : List Msg)
    (hmem : (mid, l) ∈ emailGroupsList ms) :
    mid ≠ "" ∧ l = ms.filter (fun m => m.messageId == mid) := by
  obtain ⟨hkeys, hne, hlook⟩ := emailGroupsList_ok ms
  have hmid : mid ≠ "" := hne (mid, l) hmem
  refine ⟨hmid, ?_⟩
  have hfind := find?_key_of_mem_nodup (emailGroupsList ms) mid l hkeys hmem
  have hlk : groupLookup (emailGroupsList ms) mid = some l := by
    simp [groupLookup, hfind]
  rw [hlook mid hmid] at hlk
  by_cases hemp : ms.filter (fun m => m.messageId == mid) = []
  · rw [if_pos hemp] at hlk; simp at hlk
  · rw [if_neg hemp] at hlk
    exact (Option.some_inj.1 hlk).symm

/-! ### Folder resolution and the archive orchestrator
(src/background.js lines 1306-1336, 1613-1625, 1632-1889)

Remote folder lookup/creation and item moves are abstracted by the
`MailEnv` fields: `findFolder` is the value `findFolderByName` resolves
to (it returns `null` on every failure), `createFolder` the value
`createFolder` resolves to, `distinguishedFolder` the outcome of
`getDistinguishedFolderId` (`none` when it throws), `moveOk` whether
`moveToFolder` succeeds for a given item id (with `moveErrMsg` the error
message when it throws), and `storeError` the rejection, if any, of the
final `chrome.storage.local.set` (the only awaited call that the outer
`try`'s own handlers do not already absorb). -/

structure MoveRec where
  itemId : String
  dest : String
  ok : Bool
deriving Repr, DecidableEq

structure MailEnv where
  aggEnv1 : AggEnv
  aggEnv2 : AggEnv
  findFolder : String → Option String
  createFolder : String → Option String
  distinguishedFolder : String → Option String
  moveOk : String → Bool
  moveErrMsg : String → String
  storeError : Option String

/-- `getFolderId` (lines 1613-1625). -/
def getFolderId (env : MailEnv) (folderName : String) (isDistinguished : Bool) :
    Option String :=
  if isDistinguished then env.distinguishedFolder folderName
  else env.findFolder folderName

/-- `findOrCreateFolder` (lines 1306-1336): find, else create, else find
again, else throw.  The second component lists the names for which a
`CreateFolder` request was issued. -/
def findOrCreateFolder (env : MailEnv) (folderName : String) :
    Except String String × List String :=
  match env.findFolder folderName with
  | some folderId => (.ok folderId, [])
  | none =>
    match env.createFolder folderName with
    | some folderId => (.ok folderId, [folderName])
    | none =>
      match env.findFolder folderName with
      | some folderId => (.ok folderId, [folderName])
      | none =>
        (.error ("Could not find or create " ++ dq ++ folderName ++ dq ++ " folder"),
          [folderName])

/-- ASCII whitespace, for modelling JavaScript `String.prototype.trim`. -/
def isSpaceChar (c : Char) : Bool :=
  c == ' ' || c == Char.ofNat 9 || c == Char.ofNat 10 || c == Char.ofNat 13 ||
    c == Char.ofNat 11 || c == Char.ofNat 12

/-- JavaScript `.trim()` (restricted to ASCII whitespace). -/
def strTrim (s : String) : String :=
  String.mk (((s.toList.dropWhile isSpaceChar).reverse.dropWhile isSpaceChar).reverse)

/-- JavaScript `.toLowerCase()` (ASCII case mapping). -/
def strToLower (s : String) : String := String.mk (s.toList.map Char.toLower)

/-- The label used when a record's source folder is blank
(`countByFolder`, line 1109, and the archive loop, line 1840). -/
def folderLabelOf (m : Msg) : String :=
  if strTrim m.sourceFolder = "" then "(Unknown folder)" else m.sourceFolder

def bumpCount (counts : List (String × Nat)) (k : String) : List (String × Nat) :=
  match counts with
  | [] => [(k, 1)]
  | c :: rest => if c.1 = k then (c.1, c.2 + 1) :: rest else c :: bumpCount rest k

/-- `countByFolder` (lines 1106-1117): tally per source folder, then
sort descending by count (JavaScript `sort` is stable). -/
def countByFolder (ms : List Msg) : List (String × Nat) :=
  (ms.foldl (fun acc m => bumpCount acc (folderLabelOf m)) []).mergeSort
    (fun a b => decide (b.2 ≤ a.2))

/-- `appendFolderStatsToLog` (lines 1119-1131), for rows of the
`{folder, fetched, included, error?}` shape. -/
def folderStatsLog (title : String) (stats : List FolderStat) : List String :=
  if stats.isEmpty then []
  else title :: stats.map (fun row =>
    let errSuffix := match row.error with
      | some e => " (error: " ++ e ++ ")"
      | none => ""
    "  - " ++ row.folder ++ ": fetched " ++ toString row.fetched ++ ", included "
      ++ toString row.included ++ errSuffix)

/-- `appendFolderStatsToLog` for rows of the `{folder, count}` shape. -/
def folderCountsLog (title : String) (rows : List (String × Nat)) : List String :=
  if rows.isEmpty then []
  else title :: rows.map (fun r => "  - " ++ r.1 ++ ": " ++ toString r.2)

/-- Accumulator of the duplicate-move loop (lines 1746-1764). -/
structure MovePhase where
  moves : List MoveRec := []
  movedCount : Nat := 0
  errCount : Nat := 0
  log : List String := []
deriving Repr, DecidableEq

def dupMoveStep (env : MailEnv) (dest : String) (p : MovePhase) (m : Msg) : MovePhase :=
  if env.moveOk m.id then
    { p with
      moves := p.moves ++ [⟨m.id, dest, true⟩]
      movedCount := p.movedCount + 1
      log := p.log ++ ["Moved duplicate: " ++ m.subject] }
  else
    { p with
      moves := p.moves ++ [⟨m.id, dest, false⟩]
      errCount := p.errCount + 1
      log := p.log ++ ["Failed to move duplicate " ++ dq ++ m.subject ++ dq ++ ": "
        ++ env.moveErrMsg m.id] }

/-- For each group with more than one record, keep `emails[0]` and move
`emails.slice(1)` (lines 1746-1764). -/
def dupMovePhase (env : MailEnv) (dest : String) (gs : List (String × List Msg)) :
    MovePhase :=
  gs.foldl (fun p g => (g.2.drop 1).foldl (dupMoveStep env dest) p) {}

/-- Log line `Checking for "Duplicates" folder...` (line 1735). -/
def dupCheckMsg : String := "Checking for " ++ dq ++ "Duplicates" ++ dq ++ " folder..."

/-- Skip log line of line 1768. -/
def dupSkipMsg : String := dq ++ "Duplicates" ++ dq
  ++ " folder not found - skipping duplicate handling. Create the folder manually to enable."

/-- STEP 1 of the live run (lines 1728-1771): when duplicates exist, look
up the `Duplicates` folder (display-name search only, no creation) and
move the non-keepers there, or log a skip when the folder is absent. -/
def orchDupPhase (env : MailEnv) (ms : List Msg) : MovePhase :=
  if 0 < duplicateCountOf ms then
    match getFolderId env "Duplicates" false with
    | some duplicatesFolderId =>
      let p := dupMovePhase env duplicatesFolderId (dupGroupsOf ms)
      { p with
        log := [dupCheckMsg]
          ++ ["Found " ++ dq ++ "Duplicates" ++ dq ++ " folder, moving duplicates..."]
          ++ p.log
          ++ ["Moved " ++ toString p.movedCount ++ " duplicates, "
            ++ toString p.errCount ++ " errors"] }
    | none =>
      { moves := []
        movedCount := 0
        errCount := 0
        log := [dupCheckMsg] ++ [dupSkipMsg] }
  else {}

/-- Accumulator of the archive loop (lines 1835-1849). -/
structure ArchPhase where
  moves : List MoveRec := []
  archivedCount : Nat := 0
  errCount : Nat := 0
  archivedSubjects : List String := []
  byFolder : List (String × Nat) := []
  log : List String := []
deriving Repr, DecidableEq

def archiveStep (env : MailEnv) (dest : String) (p : ArchPhase) (m : Msg) : ArchPhase :=
  if env.moveOk m.id then
    { p with
      moves := p.moves ++ [⟨m.id, dest, true⟩]
      archivedCount := p.archivedCount + 1
      archivedSubjects := p.archivedSubjects ++ [m.subject]
      byFolder := bumpCount p.byFolder (folderLabelOf m)
      log := p.log ++ ["Archived: " ++ m.subject] }
  else
    { p with
      moves := p.moves ++ [⟨m.id, dest, false⟩]
      errCount := p.errCount + 1
      log := p.log ++ ["Failed to archive " ++ dq ++ m.subject ++ dq ++ ": "
        ++ env.moveErrMsg m.id] }

def archivePhase (env : MailEnv) (dest : String) (items : List Msg) : ArchPhase :=
  items.foldl (archiveStep env dest) {}

/-- Shape of `processAndArchiveEmails`'s resolved value.  Fields the
particular `return` statement does not carry are `none` (JavaScript
`undefined`). -/
structure OrchOutput where
  success : Bool
  error : Option String := none
  archivedCount : Option Nat := none
  duplicatesMovedCount : Option Nat := none
  foundCount : Option Nat := none
  duplicateCount : Option Nat := none
  totalScanned : Option Nat := none
  errors : Option Nat := none
  archivedSubjects : Option (List String) := none
  foundSubjects : Option (List String) := none
  log : List String := []
deriving Repr, DecidableEq

/-- A run's observable outcome: the returned value, the value of the
`processingInProgress` flag after the run, the number of
`fetchMessagesAcrossInboxAndSubfolders` calls made, every `MoveItem`
request issued (in order), and every folder name a `CreateFolder`
request was issued for. -/
structure OrchRun where
  result : OrchOutput
  flagOut : Bool
  fetchCalls : Nat
  moveAttempts : List MoveRec
  createAttempts : List String
deriving Repr, DecidableEq

/-- First-fetch message list of a live run. -/
def orchMessages1 (env : MailEnv) (incl : Bool) : List Msg :=
  (fetchMessagesAcrossInboxAndSubfolders env.aggEnv1 incl).messages

/-- Re-fetch message list of a live run. -/
def orchMessages2 (env : MailEnv) (incl : Bool) : List Msg :=
  (fetchMessagesAcrossInboxAndSubfolders env.aggEnv2 incl).messages

/-- The archive set recomputed from the re-fetched state. -/
def orchToArchiveRefresh (env : MailEnv) (incl : Bool) : List Msg :=
  toArchiveOf (orchMessages2 env incl)

/-- Log lines produced by STEP 2's re-fetch (lines 1774-1800). -/
def orchRefetchLog (env : MailEnv) (incl : Bool) (log7 : List String) : List String :=
  log7 ++ ["Re-fetching after duplicate removal..."]
    ++ ["Found " ++ toString (orchMessages2 env incl).length
      ++ " messages after deduplication"]
    ++ folderStatsLog "Scan breakdown after dedup (unique included per folder):"
        (fetchMessagesAcrossInboxAndSubfolders env.aggEnv2 incl).folderStats
    ++ [toString (orchToArchiveRefresh env incl).length ++ " emails to archive"]
    ++ folderCountsLog "Emails to archive by folder:"
        (countByFolder (orchToArchiveRefresh env incl))

/-- The archive pass of STEP 4 over the re-fetched archive set. -/
def orchArchP (env : MailEnv) (incl : Bool) (fid : String) : ArchPhase :=
  archivePhase env fid (orchToArchiveRefresh env incl)

/-- Log lines of a completed live run (through line 1856). -/
def orchDoneLog (env : MailEnv) (incl : Bool) (log7 : List String) (dupP : MovePhase)
    (fid : String) : List String :=
  orchRefetchLog env incl log7 ++ ["Getting archive folder ID"] ++ ["Archive folder found"]
    ++ (orchArchP env incl fid).log
    ++ folderCountsLog "Archived emails by source folder:"
        ((orchArchP env incl fid).byFolder.mergeSort (fun a b => decide (b.2 ≤ a.2)))
    ++ ["Done. Archived " ++ toString (orchArchP env incl fid).archivedCount
      ++ " messages, moved " ++ toString dupP.movedCount ++ " duplicates, "
      ++ toString ((orchArchP env incl fid).errCount + dupP.errCount) ++ " total errors"]

/-- STEPS 2-4 of the live run (lines 1773-1889): unconditional re-fetch,
recompute the archive set, resolve the archive folder (fatal on
failure), archive, persist.  A `storeError` models the
`chrome.storage.local.set` rejection reaching the outer `catch`; the
`finally` clears the flag on every path. -/
def orchAfterDup (env : MailEnv) (includeSubfolders : Bool) (totalScanned : Nat)
    (log7 : List String) (dupP : MovePhase) : OrchRun :=
  if (orchToArchiveRefresh env includeSubfolders).isEmpty then
    { result :=
        { success := true
          archivedCount := some 0
          duplicatesMovedCount := some dupP.movedCount
          totalScanned := some totalScanned
          archivedSubjects := some []
          errors := some dupP.errCount
          log := orchRefetchLog env includeSubfolders log7 }
      flagOut := false
      fetchCalls := 2
      moveAttempts := dupP.moves
      createAttempts := [] }
  else
    match getFolderId env "archive" true with
    | none =>
      { result :=
          { success := false
            error := some "Could not get archive folder: Archive folder not found"
            log := orchRefetchLog env includeSubfolders log7
              ++ ["Getting archive folder ID"]
              ++ ["Could not get archive folder: Archive folder not found"] }
        flagOut := false
        fetchCalls := 2
        moveAttempts := dupP.moves
        createAttempts := [] }
    | some archiveFolderId =>
      match env.storeError with
      | some e =>
        { result :=
            { success := false
              error := some e
              log := orchDoneLog env includeSubfolders log7 dupP archiveFolderId
                ++ ["Error: " ++ e] }
          flagOut := false
          fetchCalls := 2
          moveAttempts := dupP.moves ++ (orchArchP env includeSubfolders archiveFolderId).moves
          createAttempts := [] }
      | none =>
        { result :=
            { success := true
              archivedCount := some (orchArchP env includeSubfolders archiveFolderId).archivedCount
              duplicatesMovedCount := some dupP.movedCount
              totalScanned := some totalScanned
              archivedSubjects := some (orchArchP env includeSubfolders archiveFolderId).archivedSubjects
              errors := some ((orchArchP env includeSubfolders archiveFolderId).errCount + dupP.errCount)
              log := orchDoneLog env includeSubfolders log7 dupP archiveFolderId }
          flagOut := false
          fetchCalls := 2
          moveAttempts := dupP.moves ++ (orchArchP env includeSubfolders archiveFolderId).moves
          createAttempts := [] }

/-- Log lines of STEP 0's scan (lines 1641-1648). -/
def orchScanLog (env : MailEnv) (dryRun incl : Bool) : List String :=
  ["Starting email processing " ++ (if dryRun then "(DRY RUN)" else "")]
    ++ ["Fetching up to " ++ toString MAX_EMAILS_TO_PROCESS
      ++ " messages from inbox"
      ++ (if incl then " (including subfolders)" else "")]
    ++ ["Found " ++ toString (orchMessages1 env incl).length ++ " messages"]
    ++ folderStatsLog "Scan breakdown (unique included per folder):"
        (fetchMessagesAcrossInboxAndSubfolders env.aggEnv1 incl).folderStats

/-- Log lines accumulated through the duplicate count (lines 1641-1710). -/
def orchPreLog (env : MailEnv) (dryRun incl : Bool) : List String :=
  orchScanLog env dryRun incl
    ++ ["Found " ++ toString (repliedToIdsList (orchMessages1 env incl)).dedup.length
      ++ " unique message references (In-Reply-To + References)"]
    ++ [toString (toArchiveOf (orchMessages1 env incl)).length
      ++ " messages have been replied to"
      ++ (if dryRun then "" else " and will be archived")]
    ++ folderCountsLog "Replied-to emails by folder:"
        (countByFolder (toArchiveOf (orchMessages1 env incl)))
    ++ ["Found " ++ toString (duplicateCountOf (orchMessages1 env incl))
      ++ " duplicate emails (same Message-ID) in "
      ++ toString (dupGroupsOf (orchMessages1 env incl)).length ++ " groups"]

/-- The body of `processAndArchiveEmails` once the single-flight guard
has been acquired (lines 1638-1888). -/
def orchBody (env : MailEnv) (dryRun includeSubfolders : Bool) : OrchRun :=
  if (orchMessages1 env includeSubfolders).isEmpty then
    { result :=
        { success := true
          archivedCount := some 0
          totalScanned := some 0
          archivedSubjects := some []
          log := orchScanLog env dryRun includeSubfolders ++ ["No messages to process"] }
      flagOut := false
      fetchCalls := 1
      moveAttempts := []
      createAttempts := [] }
  else if dryRun then
    { result :=
        { success := true
          foundCount := some (toArchiveOf (orchMessages1 env includeSubfolders)).length
          totalScanned := some (orchMessages1 env includeSubfolders).length
          foundSubjects := some ((toArchiveOf (orchMessages1 env includeSubfolders)).map
            (fun m => m.subject))
          duplicateCount := some (duplicateCountOf (orchMessages1 env includeSubfolders))
          log := orchPreLog env dryRun includeSubfolders }
      flagOut := false
      fetchCalls := 1
      moveAttempts := []
      createAttempts := [] }
  else
    orchAfterDup env includeSubfolders (orchMessages1 env includeSubfolders).length
      (orchPreLog env dryRun includeSubfolders
        ++ (orchDupPhase env (orchMessages1 env includeSubfolders)).log)
      (orchDupPhase env (orchMessages1 env includeSubfolders))

/-- `processAndArchiveEmails` (lines 1632-1889) with the
`processingInProgress` flag threaded explicitly: when set, the call
fails immediately before doing anything; otherwise it is set, the body
runs, and the `finally` clears it on every exit path. -/
def processAndArchiveEmails (flagIn : Bool) (env : MailEnv) (dryRun : Bool)
    (includeSubfolders : Bool) : OrchRun :=
  if flagIn then
    { result :=
        { success := false
          error := some "Processing already in progress" }
      flagOut := true
      fetchCalls := 0
      moveAttempts := []
      createAttempts := [] }
  else orchBody env dryRun includeSubfolders

/-! ### Branch lemmas for the orchestrator -/

theorem processAndArchiveEmails_false_eq (env : MailEnv) (d i : Bool) :
    processAndArchiveEmails false env d i = orchBody env d i := rfl

theorem processAndArchiveEmails_true_eq (env : MailEnv) (d i : Bool) :
    processAndArchiveEmails true env d i =
      { result :=
          { success := false
            error := some "Processing already in progress" }
        flagOut := true
        fetchCalls := 0
        moveAttempts := []
        createAttempts := [] } := rfl

theorem orchAfterDup_flagOut (env : MailEnv) (incl : Bool) (total : Nat)
    (log7 : List String) (dupP : MovePhase) :
    (orchAfterDup env incl total log7 dupP).flagOut = false := by
  unfold orchAfterDup
  repeat' split
  all_goals rfl

theorem orchAfterDup_creates (env : MailEnv) (incl : Bool) (total : Nat)
    (log7 : List String) (dupP : MovePhase) :
    (orchAfterDup env incl total log7 dupP).createAttempts = [] := by
  unfold orchAfterDup
  repeat' split
  all_goals rfl

theorem orchAfterDup_log_mem (env : MailEnv) (incl : Bool) (total : Nat)
    (log7 : List String) (dupP : MovePhase) (x : String) (hx : x ∈ log7) :
    x ∈ (orchAfterDup env incl total log7 dupP).result.log := by
  unfold orchAfterDup
  repeat' split
  all_goals simp [orchRefetchLog, orchDoneLog, hx]

theorem orchAfterDup_moves_extend (env : MailEnv) (incl : Bool) (total : Nat)
    (log7 : List String) (dupP : MovePhase) :
    ∃ rest, (orchAfterDup env incl total log7 dupP).moveAttempts = dupP.moves ++ rest := by
  unfold orchAfterDup
  repeat' split
  all_goals first
    | exact ⟨[], (List.append_nil _).symm⟩
    | exact ⟨_, rfl⟩

theorem orchBody_flagOut (env : MailEnv) (d i : Bool) :
    (orchBody env d i).flagOut = false := by
  unfold orchBody
  split
  · rfl
  · split
    · rfl
    · exact orchAfterDup_flagOut _ _ _ _ _

theorem orchBody_live_eq (env : MailEnv) (incl : Bool)
    (hms : (orchMessages1 env incl).isEmpty = false) :
    orchBody env false incl =
      orchAfterDup env incl (orchMessages1 env incl).length
        (orchPreLog env false incl ++ (orchDupPhase env (orchMessages1 env incl)).log)
        (orchDupPhase env (orchMessages1 env incl)) := by
  unfold orchBody
  rw [if_neg (by simp [hms]), if_neg (by simp)]

theorem orchAfterDup_refresh_empty (env : MailEnv) (incl : Bool) (total : Nat)
    (log7 : List String) (dupP : MovePhase)
    (href : (orchToArchiveRefresh env incl).isEmpty = true) :
    (orchAfterDup env incl total log7 dupP).result.success = true ∧
    (orchAfterDup env incl total log7 dupP).result.duplicatesMovedCount =
      some dupP.movedCount ∧
    (orchAfterDup env incl total log7 dupP).result.errors = some dupP.errCount ∧
    (orchAfterDup env incl total log7 dupP).moveAttempts = dupP.moves := by
  unfold orchAfterDup
  rw [if_pos href]
  exact ⟨rfl, rfl, rfl, rfl⟩

theorem orchAfterDup_archive_missing (env : MailEnv) (incl : Bool) (total : Nat)
    (log7 : List String) (dupP : MovePhase)
    (href : (orchToArchiveRefresh env incl).isEmpty = false)
    (harch : env.distinguishedFolder "archive" = none) :
    (orchAfterDup env incl total log7 dupP).result.success = false ∧
    (orchAfterDup env incl total log7 dupP).result.error =
      some "Could not get archive folder: Archive folder not found" ∧
    (orchAfterDup env incl total log7 dupP).result.log ≠ [] ∧
    (orchAfterDup env incl total log7 dupP).moveAttempts = dupP.moves := by
  unfold orchAfterDup
  rw [if_neg (by simp [href])]
  have hg : getFolderId env "archive" true = none := by simp [getFolderId, harch]
  rw [hg]
  refine ⟨rfl, rfl, ?_, rfl⟩
  intro hcontra
  simp at hcontra

theorem orchAfterDup_success (env : MailEnv) (incl : Bool) (total : Nat)
    (log7 : List String) (dupP : MovePhase) (fid : String)
    (harch : env.distinguishedFolder "archive" = some fid)
    (hstore : env.storeError = none) :
    (orchAfterDup env incl total log7 dupP).result.success = true ∧
    (orchAfterDup env incl total log7 dupP).result.duplicatesMovedCount =
      some dupP.movedCount := by
  unfold orchAfterDup
  by_cases href : (orchToArchiveRefresh env incl).isEmpty
  · rw [if_pos href]
    exact ⟨rfl, rfl⟩
  · rw [if_neg href]
    have hg : getFolderId env "archive" true = some fid := by simp [getFolderId, harch]
    rw [hg, hstore]
    exact ⟨rfl, rfl⟩

/-! ### Claim C8 -/

/-- Trivial environment for witnesses: no subfolders, inbox returns the
given message list at offset 0 and an empty page otherwise. -/
def constAgg (ms : List Msg) : AggEnv :=
  { subfolders := []
    fetchPage := fun folder _ps offset =>
      if folder.id = "inbox" ∧ offset = 0 then .ok ms else .ok [] }

def envTrivial : MailEnv :=
  { aggEnv1 := constAgg []
    aggEnv2 := constAgg []
    findFolder := fun _ => none
    createFolder := fun _ => none
    distinguishedFolder := fun _ => none
    moveOk := fun _ => true
    moveErrMsg := fun _ => "err"
    storeError := none }

/-- C8: invoking `processAndArchiveEmails` while the
`processingInProgress` flag is set fails immediately with
`success:false`, the message `Processing already in progress`, no fetch
calls and no move requests; and on every exit path of a run that did
acquire the flag — the early returns, the normal returns, and the path
where a thrown error (modelled by `storeError`) reaches the outer
`catch` — the `finally` leaves the flag cleared, so the guard is never
left stuck (the flag after the call equals the flag before the call
only when the call was rejected; otherwise it is `false`). -/
theorem C8_single_flight_guard (flagIn : Bool) (env : MailEnv) (dryRun incl : Bool) :
    (flagIn = true →
      (processAndArchiveEmails flagIn env dryRun incl).result.success = false ∧
      (processAndArchiveEmails flagIn env dryRun incl).result.error =
        some "Processing already in progress" ∧
      (processAndArchiveEmails flagIn env dryRun incl).fetchCalls = 0 ∧
      (processAndArchiveEmails flagIn env dryRun incl).moveAttempts = []) ∧
    (flagIn = false →
      (processAndArchiveEmails flagIn env dryRun incl).flagOut = false) := by
  cases flagIn with
  | true =>
    constructor
    · intro _
      exact ⟨rfl, rfl, rfl, rfl⟩
    · intro h
      exact absurd h (by simp)
  | false =>
    constructor
    · intro h
      exact absurd h (by simp)
    · intro _
      rw [processAndArchiveEmails_false_eq]
      exact orchBody_flagOut env dryRun incl

theorem C8_witness :
    ((true : Bool) = true →
      (processAndArchiveEmails true envTrivial false false).result.success = false ∧
      (processAndArchiveEmails true envTrivial false false).result.error =
        some "Processing already in progress" ∧
      (processAndArchiveEmails true envTrivial false false).fetchCalls = 0 ∧
      (processAndArchiveEmails true envTrivial false false).moveAttempts = []) ∧
    ((true : Bool) = false →
      (processAndArchiveEmails true envTrivial false false).flagOut = false) :=
  C8_single_flight_guard true envTrivial false false

/-! ### Claim C3 -/

/-- C3 (amended): in every live run in which archive-folder resolution
is attempted and fails, `processAndArchiveEmails` returns
`success:false` with the descriptive error
`Could not get archive folder: Archive folder not found` and a non-empty
log, and the archive phase moves nothing: the only move requests the run
issued are the duplicate-phase ones (duplicates may already have been
moved before the failure). -/
theorem C3_archive_failure_amended (env : MailEnv) (incl : Bool)
    (hms : (orchMessages1 env incl).isEmpty = false)
    (harch : env.distinguishedFolder "archive" = none)
    (href : (orchToArchiveRefresh env incl).isEmpty = false) :
    (processAndArchiveEmails false env false incl).result.success = false ∧
    (processAndArchiveEmails false env false incl).result.error =
      some "Could not get archive folder: Archive folder not found" ∧
    (processAndArchiveEmails false env false incl).result.log ≠ [] ∧
    (processAndArchiveEmails false env false incl).moveAttempts =
      (orchDupPhase env (orchMessages1 env incl)).moves := by
  rw [processAndArchiveEmails_false_eq, orchBody_live_eq env incl hms]
  exact orchAfterDup_archive_missing env incl _ _ _ href harch

def envC3 : MailEnv :=
  { aggEnv1 := constAgg [msgA, msgB1, msgB2]
    aggEnv2 := constAgg [msgA, msgC]
    findFolder := fun n => if n = "Duplicates" then some "dupF" else none
    createFolder := fun _ => none
    distinguishedFolder := fun _ => none
    moveOk := fun _ => true
    moveErrMsg := fun _ => "err"
    storeError := none }

set_option maxRecDepth 100000 in
/-- C3 counterexample: a live run in which archive-folder resolution
fails but in which an item HAS been moved: the duplicate of `msgB1` was
relocated to the `Duplicates` folder before the archive phase failed, so
"no items are moved" is false as stated. -/
theorem C3_counterexample :
    (processAndArchiveEmails false envC3 false false).result.success = false ∧
    (processAndArchiveEmails false envC3 false false).result.error =
      some "Could not get archive folder: Archive folder not found" ∧
    (processAndArchiveEmails false envC3 false false).moveAttempts.filter
      (fun mv => mv.ok) = [⟨"idB2", "dupF", true⟩] := by
  decide

set_option maxRecDepth 100000 in
theorem C3_witness :
    (processAndArchiveEmails false envC3 false false).result.success = false ∧
    (processAndArchiveEmails false envC3 false false).result.error =
      some "Could not get archive folder: Archive folder not found" ∧
    (processAndArchiveEmails false envC3 false false).result.log ≠ [] ∧
    (processAndArchiveEmails false envC3 false false).moveAttempts =
      (orchDupPhase envC3 (orchMessages1 envC3 false)).moves :=
  C3_archive_failure_amended envC3 false (by decide) rfl (by decide)

/-! ### Claim C4 -/

theorem messages_ne_nil_of_dup (ms : List Msg) (h : 0 < duplicateCountOf ms) :
    ms.isEmpty = false := by
  cases ms with
  | nil => simp [duplicateCountOf, dupGroupsOf, emailGroupsList] at h
  | cons a l => rfl

/-- Outcome of the duplicate phase when the `Duplicates` folder is
absent. -/
def dupSkipPhase : MovePhase :=
  { moves := []
    movedCount := 0
    errCount := 0
    log := [dupCheckMsg, dupSkipMsg] }

/-- C4 (amended): in every live run with duplicate groups but no
`Duplicates` folder, the run never issues a `CreateFolder` request, logs
the skip line, moves no duplicate; and whenever the rest of the run
encounters no error of its own (nothing to archive, or the archive
folder resolves and persisting succeeds), the run completes with
`success:true` and `duplicatesMovedCount = 0`.  (An unrelated later
failure — e.g. archive-folder resolution — can still fail the run, which
is the only divergence from the claim as stated.) -/
theorem C4_duplicates_folder_absent_amended (env : MailEnv) (incl : Bool)
    (hdup : 0 < duplicateCountOf (orchMessages1 env incl))
    (hnof : env.findFolder "Duplicates" = none) :
    (processAndArchiveEmails false env false incl).createAttempts = [] ∧
    dupSkipMsg ∈ (processAndArchiveEmails false env false incl).result.log ∧
    (orchDupPhase env (orchMessages1 env incl)).moves = [] ∧
    ((orchToArchiveRefresh env incl).isEmpty = true →
      (processAndArchiveEmails false env false incl).result.success = true ∧
      (processAndArchiveEmails false env false incl).result.duplicatesMovedCount =
        some 0 ∧
      (processAndArchiveEmails false env false incl).result.errors = some 0) ∧
    (∀ fid, env.distinguishedFolder "archive" = some fid → env.storeError = none →
      (processAndArchiveEmails false env false incl).result.success = true ∧
      (processAndArchiveEmails false env false incl).result.duplicatesMovedCount =
        some 0) := by
  have hms := messages_ne_nil_of_dup _ hdup
  have hdupP : orchDupPhase env (orchMessages1 env incl) = dupSkipPhase := by
    unfold orchDupPhase
    rw [if_pos hdup]
    simp [getFolderId, hnof, dupSkipPhase]
  rw [processAndArchiveEmails_false_eq, orchBody_live_eq env incl hms, hdupP]
  refine ⟨orchAfterDup_creates _ _ _ _ _, ?_, rfl, ?_, ?_⟩
  · apply orchAfterDup_log_mem
    simp [dupSkipPhase]
  · intro href
    have h := orchAfterDup_refresh_empty env incl (orchMessages1 env incl).length
      (orchPreLog env false incl ++ dupSkipPhase.log) dupSkipPhase href
    exact ⟨h.1, h.2.1, h.2.2.1⟩
  · intro fid harch hstore
    exact orchAfterDup_success env incl (orchMessages1 env incl).length
      (orchPreLog env false incl ++ dupSkipPhase.log) dupSkipPhase fid harch hstore

def envC4 : MailEnv :=
  { aggEnv1 := constAgg [msgA, msgB1, msgB2]
    aggEnv2 := constAgg [msgA, msgC]
    findFolder := fun _ => none
    createFolder := fun _ => none
    distinguishedFolder := fun _ => none
    moveOk := fun _ => true
    moveErrMsg := fun _ => "err"
    storeError := none }

set_option maxRecDepth 100000 in
/-- C4 counterexample: a live run with a duplicate group and no
`Duplicates` folder that does NOT complete with `success:true`: the
subsequent archive-folder resolution fails and the run returns
`success:false`, refuting "still completes with success:true" as a
universal statement. -/
theorem C4_counterexample :
    0 < duplicateCountOf (orchMessages1 envC4 false) ∧
    envC4.findFolder "Duplicates" = none ∧
    (processAndArchiveEmails false envC4 false false).result.success = false := by
  decide

set_option maxRecDepth 100000 in
theorem C4_witness :
    (processAndArchiveEmails false envC4 false false).createAttempts = [] ∧
    dupSkipMsg ∈ (processAndArchiveEmails false envC4 false false).result.log ∧
    (orchDupPhase envC4 (orchMessages1 envC4 false)).moves = [] ∧
    ((orchToArchiveRefresh envC4 false).isEmpty = true →
      (processAndArchiveEmails false envC4 false false).result.success = true ∧
      (processAndArchiveEmails false envC4 false false).result.duplicatesMovedCount =
        some 0 ∧
      (processAndArchiveEmails false envC4 false false).result.errors = some 0) ∧
    (∀ fid, envC4.distinguishedFolder "archive" = some fid →
      envC4.storeError = none →
      (processAndArchiveEmails false envC4 false false).result.success = true ∧
      (processAndArchiveEmails false envC4 false false).result.duplicatesMovedCount =
        some 0) :=
  C4_duplicates_folder_absent_amended envC4 false (by decide) rfl

/-! ### Claim C6 -/

theorem dupMoveFold_moves (env : MailEnv) (dest : String) :
    ∀ (items : List Msg) (p : MovePhase),
      (items.foldl (dupMoveStep env dest) p).moves =
        p.moves ++ items.map (fun m => ⟨m.id, dest, env.moveOk m.id⟩) := by
  intro items
  induction items with
  | nil => intro p; simp
  | cons m rest ih =>
    intro p
    rw [List.foldl_cons, ih]
    by_cases h : env.moveOk m.id <;>
      simp [dupMoveStep, h]

theorem dupMovePhase_moves (env : MailEnv) (dest : String) :
    ∀ (gs : List (String × List Msg)) (p : MovePhase),
      ((gs.foldl (fun p g => (g.2.drop 1).foldl (dupMoveStep env dest) p) p)).moves =
        p.moves ++ (gs.flatMap (fun g => g.2.drop 1)).map
          (fun m => ⟨m.id, dest, env.moveOk m.id⟩) := by
  intro gs
  induction gs with
  | nil => intro p; simp
  | cons g rest ih =>
    intro p
    rw [List.foldl_cons, ih, dupMoveFold_moves]
    simp

theorem orchDupPhase_moves_found (env : MailEnv) (ms : List Msg) (fid : String)
    (hdup : 0 < duplicateCountOf ms)
    (hfound : env.findFolder "Duplicates" = some fid) :
    (orchDupPhase env ms).moves =
      ((dupGroupsOf ms).flatMap (fun g => g.2.drop 1)).map
        (fun m => ⟨m.id, fid, env.moveOk m.id⟩) := by
  unfold orchDupPhase
  rw [if_pos hdup]
  have hg : getFolderId env "Duplicates" false = some fid := by
    simp [getFolderId, hfound]
  rw [hg]
  show (dupMovePhase env fid (dupGroupsOf ms)).moves = _
  rw [dupMovePhase]
  rw [dupMovePhase_moves]
  simp

theorem groupLookup_some_mem (acc : List (String × List Msg)) (mid : String)
    (l : List Msg) (h : groupLookup acc mid = some l) : (mid, l) ∈ acc := by
  simp only [groupLookup, Option.map_eq_some'] at h
  obtain ⟨g, hfind, hsnd⟩ := h
  have hmem := List.mem_of_find?_eq_some hfind
  have hpred := List.find?_some hfind
  have hfst : g.1 = mid := by simpa using hpred
  have : (mid, l) = g := by
    rw [← hfst, ← hsnd]
  rwa [this]

theorem foldl_add_le (f : String × List Msg → Nat) :
    ∀ (gs : List (String × List Msg)) (acc : Nat),
      acc ≤ gs.foldl (fun a g => a + f g) acc := by
  intro gs
  induction gs with
  | nil => intro acc; exact Nat.le_refl acc
  | cons g rest ih =>
    intro acc
    calc acc ≤ acc + f g := Nat.le_add_right _ _
    _ ≤ _ := ih (acc + f g)

theorem dupCount_pos_of_mem (ms : List Msg) (mid : String) (grp : List Msg)
    (hmem : (mid, grp) ∈ dupGroupsOf ms) (hlen : 1 < grp.length) :
    0 < duplicateCountOf ms := by
  obtain ⟨s, t, hst⟩ := List.append_of_mem hmem
  unfold duplicateCountOf
  rw [show dupGroupsOf ms = s ++ (mid, grp) :: t from hst]
  rw [List.foldl_append, List.foldl_cons]
  have h1 : 0 < (s.foldl (fun a g => a + (g.2.length - 1)) 0) + (grp.length - 1) := by
    omega
  exact Nat.lt_of_lt_of_le h1 (foldl_add_le _ t _)

/-- C6: for every duplicate group — the records sharing a non-empty
`messageId`, which the grouping map stores exactly as the
ingestion-order filter of the fetched messages — the first record is the
keeper and exactly the remaining records are the ones the duplicate
phase moves to the Duplicates folder: the phase's move list is the
concatenation of every group's tail (`emails.slice(1)`), the keeper's id
is never among the duplicate-phase moves, every non-keeper's id is, and
the run issues those moves before any archive-phase move. -/
theorem C6_keeper_first_rest_moved (env : MailEnv) (incl : Bool) (mid fid : String)
    (hmid : mid ≠ "")
    (hfound : env.findFolder "Duplicates" = some fid)
    (hgrp : 2 ≤ ((orchMessages1 env incl).filter (fun m => m.messageId == mid)).length) :
    groupLookup (emailGroupsList (orchMessages1 env incl)) mid =
      some ((orchMessages1 env incl).filter (fun m => m.messageId == mid)) ∧
    (orchDupPhase env (orchMessages1 env incl)).moves =
      ((dupGroupsOf (orchMessages1 env incl)).flatMap (fun g => g.2.drop 1)).map
        (fun m => ⟨m.id, fid, env.moveOk m.id⟩) ∧
    (∀ k, ((orchMessages1 env incl).filter (fun m => m.messageId == mid)).head? =
        some k →
      k.id ∉ (orchDupPhase env (orchMessages1 env incl)).moves.map MoveRec.itemId) ∧
    (∀ m ∈ ((orchMessages1 env incl).filter (fun m => m.messageId == mid)).drop 1,
      m.id ∈ (orchDupPhase env (orchMessages1 env incl)).moves.map MoveRec.itemId) ∧
    (∃ rest, (processAndArchiveEmails false env false incl).moveAttempts =
      (orchDupPhase env (orchMessages1 env incl)).moves ++ rest) := by
  set ms := orchMessages1 env incl with hms_def
  set grp := ms.filter (fun m => m.messageId == mid) with hgrp_def
  have hfil_ne : grp ≠ [] := by
    intro h
    rw [h] at hgrp
    simp at hgrp
  have hlook : groupLookup (emailGroupsList ms) mid = some grp := by
    obtain ⟨hkeys, hne, hlk⟩ := emailGroupsList_ok ms
    rw [hlk mid hmid, if_neg hfil_ne]
  have hmemg : (mid, grp) ∈ emailGroupsList ms := groupLookup_some_mem _ _ _ hlook
  have hlen : 1 < grp.length := by omega
  have hdupmem : (mid, grp) ∈ dupGroupsOf ms := by
    rw [dupGroupsOf, List.mem_filter]
    exact ⟨hmemg, by simpa using hlen⟩
  have hdup : 0 < duplicateCountOf ms := dupCount_pos_of_mem ms mid grp hdupmem hlen
  have hmoves := orchDupPhase_moves_found env ms fid hdup hfound
  have hnodup : ((orchMessages1 env incl).map Msg.id).Nodup :=
    fetchAll_nodup_ids env.aggEnv1 incl
  refine ⟨hlook, hmoves, ?_, ?_, ?_⟩
  · intro k hk hcontra
    rw [hmoves] at hcontra
    simp only [List.map_map, List.mem_map, Function.comp] at hcontra
    obtain ⟨m', hm'flat, hid⟩ := hcontra
    obtain ⟨g', hg'mem, hm'tail⟩ := List.mem_flatMap.1 hm'flat
    have hg'grps : g' ∈ emailGroupsList ms := (List.mem_filter.1 hg'mem).1
    have hg'pair : (g'.1, g'.2) ∈ emailGroupsList ms := by rwa [Prod.mk.eta]
    obtain ⟨hg'ne, hg'eq⟩ := groups_mem_eq_filter ms g'.1 g'.2 hg'pair
    have hm'g : m' ∈ g'.2 := List.mem_of_mem_drop hm'tail
    have hm'filt := List.mem_filter.1 (hg'eq ▸ hm'g)
    have hk' : k ∈ grp := List.mem_of_mem_head? hk
    have hkfilt := List.mem_filter.1 hk'
    have hm'k : m' = k :=
      List.inj_on_of_nodup_map hnodup hm'filt.1 hkfilt.1 hid
    by_cases hcase : g'.1 = mid
    · have hg2 : g'.2 = grp := by rw [hg'eq, hcase]
      have hgnodup : grp.Nodup := by
        refine List.Nodup.of_map Msg.id ?_
        exact List.Nodup.sublist (List.Sublist.map _ (List.filter_sublist ms)) hnodup
      cases hgrpeq : grp with
      | nil => exact hfil_ne hgrpeq
      | cons a t =>
        have hka : k = a := by
          rw [hgrpeq] at hk
          simpa using hk.symm
        have hmt : m' ∈ t := by
          have := hm'tail
          rw [hg2, hgrpeq] at this
          simpa using this
        rw [hgrpeq] at hgnodup
        rw [List.nodup_cons] at hgnodup
        exact hgnodup.1 (by rwa [← hka, ← hm'k])
    · have h1 : m'.messageId = g'.1 := by simpa using hm'filt.2
      have h2 : k.messageId = mid := by simpa using hkfilt.2
      rw [hm'k, h2] at h1
      exact hcase h1.symm
  · intro m hm
    rw [hmoves]
    simp only [List.map_map, List.mem_map, Function.comp]
    exact ⟨m, List.mem_flatMap.2 ⟨(mid, grp), hdupmem, hm⟩, rfl⟩
  · have hmsne : ms.isEmpty = false := by
      cases hcase : ms with
      | nil =>
        rw [hgrp_def, hcase] at hfil_ne
        simp at hfil_ne
      | cons a l => rfl
    rw [processAndArchiveEmails_false_eq, orchBody_live_eq env incl hmsne]
    exact orchAfterDup_moves_extend _ _ _ _ _

def msgX1 : Msg := { id := "idX1", subject := "X1", messageId := "<x>" }

def msgX2 : Msg := { id := "idX2", subject := "X2", messageId := "<x>" }

def msgX3 : Msg := { id := "idX3", subject := "X3", messageId := "<x>" }

def envC6 : MailEnv :=
  { aggEnv1 := constAgg [msgX1, msgX2, msgX3]
    aggEnv2 := constAgg []
    findFolder := fun n => if n = "Duplicates" then some "dupF" else none
    createFolder := fun _ => none
    distinguishedFolder := fun _ => none
    moveOk := fun _ => true
    moveErrMsg := fun _ => "err"
    storeError := none }

set_option maxRecDepth 100000 in
theorem C6_witness :
    groupLookup (emailGroupsList (orchMessages1 envC6 false)) "<x>" =
      some ((orchMessages1 envC6 false).filter (fun m => m.messageId == "<x>")) ∧
    (orchDupPhase envC6 (orchMessages1 envC6 false)).moves =
      ((dupGroupsOf (orchMessages1 envC6 false)).flatMap (fun g => g.2.drop 1)).map
        (fun m => ⟨m.id, "dupF", envC6.moveOk m.id⟩) ∧
    (∀ k, ((orchMessages1 envC6 false).filter (fun m => m.messageId == "<x>")).head? =
        some k →
      k.id ∉ (orchDupPhase envC6 (orchMessages1 envC6 false)).moves.map MoveRec.itemId) ∧
    (∀ m ∈ ((orchMessages1 envC6 false).filter (fun m => m.messageId == "<x>")).drop 1,
      m.id ∈ (orchDupPhase envC6 (orchMessages1 envC6 false)).moves.map MoveRec.itemId) ∧
    (∃ rest, (processAndArchiveEmails false envC6 false false).moveAttempts =
      (orchDupPhase envC6 (orchMessages1 envC6 false)).moves ++ rest) :=
  C6_keeper_first_rest_moved envC6 false "<x>" "dupF" (by decide) rfl (by decide)

/-! ### Classifier response handling (src/background.js lines 221-268)

`queryOllama` and the JSON extraction are remote/parsing effects; the
`OllamaOutcome` value records which of the four outcomes the call had,
and `classifySingleEmail` is the pure tail of the source function that
turns that outcome into a classification result. -/

/-- The classifier's parsed JSON object, restricted to the fields the
code reads: `folder` is `none` when `parsed.folder` is not a string,
`matchTrue` is `parsed.match === true`, `reasoning` is `none` when not a
string. -/
structure ParsedResponse where
  folder : Option String := none
  matchTrue : Bool := false
  reasoning : Option String := none
deriving Repr, DecidableEq

inductive OllamaOutcome where
  | fail (err : String)
  | noJson
  | parseError (msg : String)
  | parsed (p : ParsedResponse)
deriving Repr, DecidableEq

def validFolders : List String :=
  ["1-Urgent", "2-Action", "3-Attention", "4-FYI", "5-ORG", "6-Zero"]

/-- Substring test mirroring JavaScript `String.prototype.includes`. -/
def containsSub (pat : List Char) : List Char → Bool
  | [] => pat.isPrefixOf []
  | c :: rest => pat.isPrefixOf (c :: rest) || containsSub pat rest

def strIncludes (s pat : String) : Bool := containsSub pat.toList s.toList

/-- Lines 237-257: trim the folder string, accept members of the closed
label set unchanged, otherwise normalize by keyword / digit, defaulting
to `4-FYI`.  A non-string folder is `none`; note that an empty (or
whitespace-only) string skips normalization entirely and is returned
as-is, which downstream code treats as "no folder". -/
def normalizeClassifierFolder (raw : Option String) : Option String :=
  match raw with
  | none => none
  | some s =>
    let folder := strTrim s
    if folder ≠ "" ∧ ¬ validFolders.contains folder = true then
      let normalized := strToLower folder
      if strIncludes normalized "urgent" || normalized == "1" then some "1-Urgent"
      else if strIncludes normalized "action" || normalized == "2" then some "2-Action"
      else if strIncludes normalized "attention" || normalized == "3" then some "3-Attention"
      else if strIncludes normalized "fyi" || normalized == "4" then some "4-FYI"
      else if strIncludes normalized "org" || normalized == "5" then some "5-ORG"
      else if strIncludes normalized "zero" || normalized == "6" then some "6-Zero"
      else some "4-FYI"
    else some folder

structure ClassificationResult where
  matched : Bool
  folder : Option String
  reasoning : String
  error : Option String
deriving Repr, DecidableEq

/-- `classifySingleEmail` (lines 221-268) as a function of the Ollama
call's outcome. -/
def classifySingleEmail (o : OllamaOutcome) : ClassificationResult :=
  match o with
  | .fail err => { matched := false, folder := none, reasoning := "", error := some err }
  | .noJson =>
    { matched := false, folder := none, reasoning := "", error := some "No JSON in response" }
  | .parseError msg =>
    { matched := false, folder := none, reasoning := "", error := some msg }
  | .parsed p =>
    { matched := p.matchTrue
      folder := normalizeClassifierFolder p.folder
      reasoning := p.reasoning.getD ""
      error := none }

/-! ### Triage pipeline (src/background.js lines 280-364)

Per-iteration effects are environment functions of the iteration index:
`ollama i` the classifier outcome for item `i` (the `getItemBody` result
only feeds the prompt, so it is absorbed into that outcome), `moveOk i`
whether the `MoveItem` call succeeds, `abortFlag i` the value of the
shared `classificationAborted` flag observed at the check preceding item
`i`, and `findOrCreate` the result of `findOrCreateFolder` (`none` when
it throws). -/

structure PipeEnv where
  ollama : Nat → OllamaOutcome
  findOrCreate : String → Option String
  moveOk : Nat → Bool
  moveErrMsg : Nat → String
  abortFlag : Nat → Bool

structure PipeItemResult where
  id : String
  subject : String
  sender : String
  matched : Bool
  folder : Option String
  reasoning : String
  moved : Bool
  error : Option String
deriving Repr, DecidableEq

structure PipeResult where
  success : Bool
  processed : Nat
  moved : Nat
  results : List PipeItemResult
  error : Option String
  aborted : Bool
deriving Repr, DecidableEq

/-- JavaScript falsiness of a string-or-null value. -/
def strFalsy : Option String → Bool
  | none => true
  | some s => s == ""

/-- The `for` loop of `classifyAndMoveEmails` (lines 293-361). -/
def pipeLoop (env : PipeEnv) (total : Nat) :
    List Msg → Nat → List (String × Option String) → List PipeItemResult → Nat →
      PipeResult
  | [], _i, _cache, results, movedCount =>
    { success := true, processed := total, moved := movedCount, results := results,
      error := none, aborted := false }
  | email :: rest, i, cache, results, movedCount =>
    if env.abortFlag i then
      { success := true, processed := i, moved := movedCount, results := results,
        error := none, aborted := true }
    else
      let classification := classifySingleEmail (env.ollama i)
      let result0 : PipeItemResult :=
        { id := email.id
          subject := email.subject
          sender := email.sender
          matched := classification.matched
          folder := classification.folder
          reasoning := classification.reasoning
          moved := false
          error := classification.error }
      if strFalsy classification.folder then
        pipeLoop env total rest (i + 1) cache
          (results ++ [{ result0 with error := some "No folder classification returned" }])
          movedCount
      else
        let folderName := classification.folder.getD ""
        let cache2 :=
          if (cache.find? (fun c => c.1 == folderName)).isSome then cache
          else cache ++ [(folderName, env.findOrCreate folderName)]
        let moveFolderId :=
          ((cache2.find? (fun c => c.1 == folderName)).map (fun c => c.2)).getD none
        if !strFalsy moveFolderId && strFalsy classification.error then
          if env.moveOk i then
            pipeLoop env total rest (i + 1) cache2
              (results ++ [{ result0 with moved := true }]) (movedCount + 1)
          else
            pipeLoop env total rest (i + 1) cache2
              (results ++ [{ result0 with
                error := some ("Move failed: " ++ env.moveErrMsg i) }]) movedCount
        else
          pipeLoop env total rest (i + 1) cache2 (results ++ [result0]) movedCount

/-- `classifyAndMoveEmails` (lines 280-364). -/
def classifyAndMoveEmails (env : PipeEnv) (emails : List Msg) (maxIterations : Nat) :
    PipeResult :=
  if emails.isEmpty then
    { success := true, processed := 0, moved := 0, results := [], error := none,
      aborted := false }
  else
    let limit := min emails.length
      (if maxIterations = 0 then DEFAULT_EMAIL_ITERATIONS else maxIterations)
    pipeLoop env (emails.take limit).length (emails.take limit) 0 [] [] 0

/-! ### Claim C7 -/

theorem pipeLoop_step (env : PipeEnv) (total : Nat) (email : Msg) (rest : List Msg)
    (i : Nat) (cache : List (String × Option String)) (results : List PipeItemResult)
    (movedCount : Nat) (hflag : env.abortFlag i = false) :
    ∃ res cache2 moved2,
      res.id = email.id ∧
      pipeLoop env total (email :: rest) i cache results movedCount =
        pipeLoop env total rest (i + 1) cache2 (results ++ [res]) moved2 := by
  simp only [pipeLoop, hflag, Bool.false_eq_true, if_false]
  repeat' split
  all_goals exact ⟨_, _, _, rfl, rfl⟩

theorem pipeLoop_abort (env : PipeEnv) (total : Nat) :
    ∀ (l : List Msg) (d i : Nat) (cache : List (String × Option String))
      (results : List PipeItemResult) (movedCount : Nat),
      d < l.length →
      (∀ j, j < d → env.abortFlag (i + j) = false) →
      env.abortFlag (i + d) = true →
      (pipeLoop env total l i cache results movedCount).aborted = true ∧
      (pipeLoop env total l i cache results movedCount).processed = i + d ∧
      (pipeLoop env total l i cache results movedCount).results.map (fun x => x.id) =
        results.map (fun x => x.id) ++ (l.take d).map Msg.id := by
  intro l
  induction l with
  | nil =>
    intro d i cache results movedCount hd
    simp at hd
  | cons email rest ih =>
    intro d i cache results movedCount hd hflags hset
    cases d with
    | zero =>
      rw [pipeLoop, if_pos (by simpa using hset)]
      exact ⟨rfl, rfl, by simp⟩
    | succ d' =>
      have hflag0 : env.abortFlag i = false := by
        simpa using hflags 0 (Nat.succ_pos d')
      obtain ⟨res, cache2, moved2, hid, heq⟩ :=
        pipeLoop_step env total email rest i cache results movedCount hflag0
      rw [heq]
      have hIH := ih d' (i + 1) cache2 (results ++ [res]) moved2
        (by simpa using hd)
        (fun j hj => by
          rw [show i + 1 + j = i + (j + 1) by omega]
          exact hflags (j + 1) (by omega))
        (by rw [show i + 1 + d' = i + (d' + 1) by omega]; exact hset)
      refine ⟨hIH.1, ?_, ?_⟩
      · rw [hIH.2.1]
        omega
      · rw [hIH.2.2]
        simp [hid]

/-- C7: if the cancellation flag is observed clear before each of the
first `k` items and set at the check before item `k+1` (with `k` below
the iteration limit), the pipeline stops with `aborted:true`,
`processed = k`, and the results list holds exactly the first `k` items
— no item beyond the `k`-th appears. -/
theorem C7_abort_correctness (env : PipeEnv) (emails : List Msg)
    (maxIterations k : Nat)
    (hk : ∀ j, j < k → env.abortFlag j = false)
    (hkset : env.abortFlag k = true)
    (hlt : k < min emails.length
      (if maxIterations = 0 then DEFAULT_EMAIL_ITERATIONS else maxIterations)) :
    (classifyAndMoveEmails env emails maxIterations).aborted = true ∧
    (classifyAndMoveEmails env emails maxIterations).processed = k ∧
    (classifyAndMoveEmails env emails maxIterations).results.map (fun r => r.id) =
      (emails.take k).map Msg.id := by
  have hne : emails.isEmpty = false := by
    cases emails with
    | nil => simp at hlt
    | cons a l => rfl
  rw [classifyAndMoveEmails, if_neg (by simp [hne])]
  dsimp only
  have hdlen : k < (emails.take (min emails.length
      (if maxIterations = 0 then DEFAULT_EMAIL_ITERATIONS else maxIterations))).length := by
    rw [List.length_take]
    omega
  have h := pipeLoop_abort env
    (emails.take (min emails.length
      (if maxIterations = 0 then DEFAULT_EMAIL_ITERATIONS else maxIterations))).length
    (emails.take (min emails.length
      (if maxIterations = 0 then DEFAULT_EMAIL_ITERATIONS else maxIterations)))
    k 0 [] [] 0 hdlen
    (fun j hj => by simpa using hk j hj) (by simpa using hkset)
  refine ⟨h.1, ?_, ?_⟩
  · rw [h.2.1]
    omega
  · rw [h.2.2]
    rw [List.take_take]
    have hmin : min k (min emails.length
        (if maxIterations = 0 then DEFAULT_EMAIL_ITERATIONS else maxIterations)) = k := by
      omega
    rw [hmin]
    simp

def envC7 : PipeEnv :=
  { ollama := fun _ =>
      .parsed { folder := some "4-FYI", matchTrue := true, reasoning := some "r" }
    findOrCreate := fun _ => some "fid4"
    moveOk := fun _ => true
    moveErrMsg := fun _ => "err"
    abortFlag := fun j => decide (1 ≤ j) }

theorem C7_witness :
    (classifyAndMoveEmails envC7 [msgX1, msgX2, msgX3] 3).aborted = true ∧
    (classifyAndMoveEmails envC7 [msgX1, msgX2, msgX3] 3).processed = 1 ∧
    (classifyAndMoveEmails envC7 [msgX1, msgX2, msgX3] 3).results.map (fun r => r.id) =
      ([msgX1, msgX2, msgX3].take 1).map Msg.id :=
  C7_abort_correctness envC7 [msgX1, msgX2, msgX3] 3 1 (by decide) (by decide) (by decide)

/-! ### Claim C10 -/

theorem normalize_default_FYI (f : String)
    (htrim : strTrim f ≠ "")
    (hvalid : validFolders.contains (strTrim f) = false)
    (hkw : ∀ kw ∈ ["urgent", "action", "attention", "fyi", "org", "zero"],
      strIncludes (strToLower (strTrim f)) kw = false)
    (hdig : ∀ d ∈ ["1", "2", "3", "4", "5", "6"], strToLower (strTrim f) ≠ d) :
    normalizeClassifierFolder (some f) = some "4-FYI" := by
  have e1 : (strIncludes (strToLower (strTrim f)) "urgent" || strToLower (strTrim f) == "1") = false := by
    simp [hkw "urgent" (by simp), hdig "1" (by simp)]
  have e2 : (strIncludes (strToLower (strTrim f)) "action" || strToLower (strTrim f) == "2") = false := by
    simp [hkw "action" (by simp), hdig "2" (by simp)]
  have e3 : (strIncludes (strToLower (strTrim f)) "attention" || strToLower (strTrim f) == "3") = false := by
    simp [hkw "attention" (by simp), hdig "3" (by simp)]
  have e4 : (strIncludes (strToLower (strTrim f)) "fyi" || strToLower (strTrim f) == "4") = false := by
    simp [hkw "fyi" (by simp), hdig "4" (by simp)]
  have e5 : (strIncludes (strToLower (strTrim f)) "org" || strToLower (strTrim f) == "5") = false := by
    simp [hkw "org" (by simp), hdig "5" (by simp)]
  have e6 : (strIncludes (strToLower (strTrim f)) "zero" || strToLower (strTrim f) == "6") = false := by
    simp [hkw "zero" (by simp), hdig "6" (by simp)]
  unfold normalizeClassifierFolder
  dsimp only
  rw [if_pos ⟨htrim, by simpa using hvalid⟩, e1, e2, e3, e4, e5, e6]
  rfl

/-- C10 (amended): whenever the classifier returns a folder string that
is non-empty after trimming, lies outside the closed label set and
matches none of the normalization keywords (urgent, action, attention,
fyi, org, zero, or equality with a digit 1-6), the item is silently
assigned `4-FYI`, and, absent other errors (destination resolvable,
move succeeds), the email is moved there with no recorded error.  (A
folder string that is empty — or whitespace-only — also matches no
keyword, but is NOT defaulted: it is recorded as an error instead.) -/
theorem C10_default_folder_moved (env : PipeEnv) (email : Msg) (p : ParsedResponse)
    (f fid : String)
    (hOll : env.ollama 0 = .parsed p)
    (hf : p.folder = some f)
    (htrim : strTrim f ≠ "")
    (hvalid : validFolders.contains (strTrim f) = false)
    (hkw : ∀ kw ∈ ["urgent", "action", "attention", "fyi", "org", "zero"],
      strIncludes (strToLower (strTrim f)) kw = false)
    (hdig : ∀ d ∈ ["1", "2", "3", "4", "5", "6"], strToLower (strTrim f) ≠ d)
    (hflag : env.abortFlag 0 = false)
    (hfoc : env.findOrCreate "4-FYI" = some fid)
    (hfid : fid ≠ "")
    (hmv : env.moveOk 0 = true) :
    (classifySingleEmail (env.ollama 0)).folder = some "4-FYI" ∧
    (classifyAndMoveEmails env [email] 1).moved = 1 ∧
    (classifyAndMoveEmails env [email] 1).results.map
      (fun r => (r.folder, r.moved, r.error)) = [(some "4-FYI", true, none)] := by
  have hnorm := normalize_default_FYI f htrim hvalid hkw hdig
  have hcls : classifySingleEmail (env.ollama 0) =
      { matched := p.matchTrue, folder := some "4-FYI",
        reasoning := p.reasoning.getD "", error := none } := by
    rw [hOll]
    simp [classifySingleEmail, hf, hnorm]
  have hfidb : (fid == "") = false := beq_eq_false_iff_ne.2 hfid
  have hrun : classifyAndMoveEmails env [email] 1 =
      { success := true
        processed := 1
        moved := 1
        results := [{ id := email.id
                      subject := email.subject
                      sender := email.sender
                      matched := p.matchTrue
                      folder := some "4-FYI"
                      reasoning := p.reasoning.getD ""
                      moved := true
                      error := none }]
        error := none
        aborted := false } := by
    rw [classifyAndMoveEmails, if_neg (by simp)]
    dsimp only
    simp only [List.length_singleton, DEFAULT_EMAIL_ITERATIONS]
    rw [show min 1 (if (1 : Nat) = 0 then 20 else 1) = 1 by simp]
    rw [show List.take 1 [email] = [email] by rfl]
    rw [pipeLoop, if_neg (by simp [hflag]), hcls]
    simp only [strFalsy, List.find?_nil, List.nil_append, hfoc]
    norm_num
    rw [hfoc]
    simp only [hfidb]
    norm_num
    rw [if_neg (show ¬ ("4-FYI" = "") by decide), if_pos hmv, pipeLoop]
  refine ⟨by rw [hcls], by rw [hrun], by rw [hrun]; rfl⟩

def pEmptyFolder : ParsedResponse :=
  { folder := some "", matchTrue := true, reasoning := some "r" }

def envC10 : PipeEnv :=
  { ollama := fun _ => .parsed pEmptyFolder
    findOrCreate := fun _ => some "fid4"
    moveOk := fun _ => true
    moveErrMsg := fun _ => "err"
    abortFlag := fun _ => false }

/-- C10 counterexample: the empty folder string is outside the closed
label set and matches none of the normalization keywords, yet the code
does not assign `4-FYI`: the falsy-folder guard fires first, the item is
recorded with the error `No folder classification returned` and is not
moved. -/
theorem C10_counterexample :
    validFolders.contains "" = false ∧
    (∀ kw ∈ ["urgent", "action", "attention", "fyi", "org", "zero"],
      strIncludes "" kw = false) ∧
    (∀ d ∈ ["1", "2", "3", "4", "5", "6"], ("" : String) ≠ d) ∧
    (classifySingleEmail (.parsed pEmptyFolder)).folder ≠ some "4-FYI" ∧
    (classifyAndMoveEmails envC10 [msgA] 1).moved = 0 ∧
    (classifyAndMoveEmails envC10 [msgA] 1).results.map
      (fun r => (r.moved, r.error)) =
      [(false, some "No folder classification returned")] := by
  decide

def pPriority : ParsedResponse :=
  { folder := some "Priority-7", matchTrue := true, reasoning := some "r" }

def envC10w : PipeEnv :=
  { ollama := fun _ => .parsed pPriority
    findOrCreate := fun _ => some "fid4"
    moveOk := fun _ => true
    moveErrMsg := fun _ => "err"
    abortFlag := fun _ => false }

theorem C10_witness :
    (classifySingleEmail (envC10w.ollama 0)).folder = some "4-FYI" ∧
    (classifyAndMoveEmails envC10w [msgA] 1).moved = 1 ∧
    (classifyAndMoveEmails envC10w [msgA] 1).results.map
      (fun r => (r.folder, r.moved, r.error)) = [(some "4-FYI", true, none)] :=
  C10_default_folder_moved envC10w msgA pPriority "Priority-7" "fid4" rfl rfl
    (by decide) (by decide) (by decide) (by decide) rfl rfl (by decide) rfl

/-! ### Claim C9: htmlDecode (src/background.js lines 496-504)

`htmlDecode` runs five global, left-to-right, non-overlapping literal
replacements in a fixed order.  Strings are modelled as character lists;
`replaceAll` is the semantics of `String.prototype.replace` with a
`g`-flagged literal pattern (fuelled, to keep it structurally
recursive and hence computable by the kernel). -/

/-- Boolean prefix test on character lists. -/
def isPre : List Char → List Char → Bool
  | [], _ => true
  | _ :: _, [] => false
  | a :: as, b :: bs => a == b && isPre as bs

def replaceAllFuel (pat rep : List Char) : Nat → List Char → List Char
  | 0, l => l
  | _ + 1, [] => []
  | fuel + 1, c :: rest =>
    if pat ≠ [] ∧ isPre pat (c :: rest) = true then
      rep ++ replaceAllFuel pat rep fuel (rest.drop (pat.length - 1))
    else c :: replaceAllFuel pat rep fuel rest

def replaceAll (pat rep l : List Char) : List Char :=
  replaceAllFuel pat rep l.length l

def quoteChar : Char := Char.ofNat 34

def aposChar : Char := Char.ofNat 39

def ltEnt : List Char := ['&', 'l', 't', ';']

def gtEnt : List Char := ['&', 'g', 't', ';']

def ampEnt : List Char := ['&', 'a', 'm', 'p', ';']

def quotEnt : List Char := ['&', 'q', 'u', 'o', 't', ';']

def aposEnt : List Char := ['&', '#', '3', '9', ';']

/-- `htmlDecode` (lines 496-504): a falsy input yields the empty string;
otherwise the five replacements run in source order
(`&lt;`, `&gt;`, `&amp;`, `&quot;`, `&#39;`). -/
def htmlDecode (s : List Char) : List Char :=
  if s = [] then []
  else
    replaceAll aposEnt [aposChar]
      (replaceAll quotEnt [quoteChar]
        (replaceAll ampEnt ['&']
          (replaceAll gtEnt ['>']
            (replaceAll ltEnt ['<'] s))))

/-- The claim's entity escaping, written from the spec's words
(`decodeEntities` "reverses a fixed set of HTML entity escapes
`&lt; &gt; &amp; &quot; &#39;`"): the five characters `< > & " '`
become their entities, the ampersand being escaped as any escaping that
the decoder could reverse must do. -/
def specEscChar (c : Char) : List Char :=
  if c = '<' then ltEnt
  else if c = '>' then gtEnt
  else if c = '&' then ampEnt
  else if c = quoteChar then quotEnt
  else if c = aposChar then aposEnt
  else [c]

def specHtmlEncode (s : List Char) : List Char := s.flatMap specEscChar

/-- Intermediate escapings describing the string between decode passes:
after the `&lt;` pass only `> & " '` remain escaped, and so on. -/
def esc1 (c : Char) : List Char :=
  if c = '>' then gtEnt
  else if c = '&' then ampEnt
  else if c = quoteChar then quotEnt
  else if c = aposChar then aposEnt
  else [c]

def esc2 (c : Char) : List Char :=
  if c = '&' then ampEnt
  else if c = quoteChar then quotEnt
  else if c = aposChar then aposEnt
  else [c]

def esc3 (c : Char) : List Char :=
  if c = quoteChar then quotEnt
  else if c = aposChar then aposEnt
  else [c]

def esc4 (c : Char) : List Char :=
  if c = aposChar then aposEnt
  else [c]

theorem replaceAllFuel_nil (pat rep : List Char) (f : Nat) :
    replaceAllFuel pat rep f [] = [] := by
  cases f <;> rfl

theorem replaceAllFuel_congr (pat rep : List Char) :
    ∀ (f1 : Nat) (l : List Char) (f2 : Nat), l.length ≤ f1 → l.length ≤ f2 →
      replaceAllFuel pat rep f1 l = replaceAllFuel pat rep f2 l := by
  intro f1
  induction f1 with
  | zero =>
    intro l f2 h1 _h2
    have : l = [] := by
      cases l with
      | nil => rfl
      | cons a as => simp at h1
    rw [this, replaceAllFuel_nil, replaceAllFuel_nil]
  | succ f1 ih =>
    intro l f2 h1 h2
    cases l with
    | nil => rw [replaceAllFuel_nil, replaceAllFuel_nil]
    | cons c rest =>
      cases f2 with
      | zero => simp at h2
      | succ f2 =>
        rw [replaceAllFuel, replaceAllFuel]
        by_cases hc : pat ≠ [] ∧ isPre pat (c :: rest) = true
        · rw [if_pos hc, if_pos hc]
          congr 1
          refine ih _ _ ?_ ?_
          · calc (rest.drop (pat.length - 1)).length ≤ rest.length :=
                by rw [List.length_drop]; omega
            _ ≤ f1 := by simp only [List.length_cons] at h1; omega
          · calc (rest.drop (pat.length - 1)).length ≤ rest.length :=
                by rw [List.length_drop]; omega
            _ ≤ f2 := by simp only [List.length_cons] at h2; omega
        · rw [if_neg hc, if_neg hc]
          congr 1
          refine ih rest f2 ?_ ?_
          · simp only [List.length_cons] at h1; omega
          · simp only [List.length_cons] at h2; omega

theorem replaceAll_nil (pat rep : List Char) : replaceAll pat rep [] = [] := rfl

theorem replaceAll_cons_pos (pat rep : List Char) (c : Char) (rest : List Char)
    (h1 : pat ≠ []) (h2 : isPre pat (c :: rest) = true) :
    replaceAll pat rep (c :: rest) =
      rep ++ replaceAll pat rep (rest.drop (pat.length - 1)) := by
  rw [replaceAll, List.length_cons, replaceAllFuel, if_pos ⟨h1, h2⟩]
  congr 1
  rw [replaceAll]
  refine replaceAllFuel_congr pat rep _ _ _ ?_ (Nat.le_refl _)
  rw [List.length_drop]
  omega

theorem replaceAll_cons_neg (pat rep : List Char) (c : Char) (rest : List Char)
    (h : isPre pat (c :: rest) = false) :
    replaceAll pat rep (c :: rest) = c :: replaceAll pat rep rest := by
  rw [replaceAll, List.length_cons, replaceAllFuel,
    if_neg (by intro hc; rw [h] at hc; simp at hc)]
  rfl

theorem isPre_append_self (p t : List Char) : isPre p (p ++ t) = true := by
  induction p with
  | nil => rfl
  | cons a as ih => simp [isPre, ih]

theorem replaceAll_exact (pat rep tail : List Char) (hne : pat ≠ []) :
    replaceAll pat rep (pat ++ tail) = rep ++ replaceAll pat rep tail := by
  cases hp : pat with
  | nil => exact absurd hp hne
  | cons a as =>
    rw [List.cons_append,
      replaceAll_cons_pos _ _ _ _ (by simp) (by rw [← List.cons_append, ← hp]; exact isPre_append_self pat tail)]
    congr 2
    rw [List.length_cons]
    exact List.drop_left as tail

theorem isPre_eq_isPrefixOf : ∀ p l : List Char, isPre p l = p.isPrefixOf l := by
  intro p
  induction p with
  | nil => intro l; cases l <;> rfl
  | cons a as ih =>
    intro l
    cases l with
    | nil => rfl
    | cons b bs => rw [isPre, List.isPrefixOf, ih]

theorem decode_pass1 (s : List Char) :
    replaceAll ltEnt ['<'] (s.flatMap specEscChar) = s.flatMap esc1 := by
  induction s with
  | nil => rfl
  | cons c s ih =>
    rw [List.flatMap_cons, List.flatMap_cons]
    by_cases h1 : c = '<'
    · subst h1
      rw [show specEscChar '<' = ltEnt by decide, replaceAll_exact _ _ _ (by decide), ih]
      rfl
    by_cases h2 : c = '>'
    · subst h2
      rw [show specEscChar '>' = gtEnt by decide,
        show (gtEnt ++ s.flatMap specEscChar : List Char)
          = '&' :: 'g' :: 't' :: ';' :: s.flatMap specEscChar from rfl,
        replaceAll_cons_neg _ _ _ _ (by simp [isPre, ltEnt]),
        replaceAll_cons_neg _ _ _ _ (by simp [isPre, ltEnt]),
        replaceAll_cons_neg _ _ _ _ (by simp [isPre, ltEnt]),
        replaceAll_cons_neg _ _ _ _ (by simp [isPre, ltEnt]),
        ih]
      rfl
    by_cases h3 : c = '&'
    · subst h3
      rw [show specEscChar '&' = ampEnt by decide,
        show (ampEnt ++ s.flatMap specEscChar : List Char)
          = '&' :: 'a' :: 'm' :: 'p' :: ';' :: s.flatMap specEscChar from rfl,
        replaceAll_cons_neg _ _ _ _ (by simp [isPre, ltEnt]),
        replaceAll_cons_neg _ _ _ _ (by simp [isPre, ltEnt]),
        replaceAll_cons_neg _ _ _ _ (by simp [isPre, ltEnt]),
        replaceAll_cons_neg _ _ _ _ (by simp [isPre, ltEnt]),
        replaceAll_cons_neg _ _ _ _ (by simp [isPre, ltEnt]),
        ih]
      rfl
    by_cases h4 : c = quoteChar
    · subst h4
      rw [show specEscChar quoteChar = quotEnt by decide,
        show (quotEnt ++ s.flatMap specEscChar : List Char)
          = '&' :: 'q' :: 'u' :: 'o' :: 't' :: ';' :: s.flatMap specEscChar from rfl,
        replaceAll_cons_neg _ _ _ _ (by simp [isPre, ltEnt]),
        replaceAll_cons_neg _ _ _ _ (by simp [isPre, ltEnt]),
        replaceAll_cons_neg _ _ _ _ (by simp [isPre, ltEnt]),
        replaceAll_cons_neg _ _ _ _ (by simp [isPre, ltEnt]),
        replaceAll_cons_neg _ _ _ _ (by simp [isPre, ltEnt]),
        replaceAll_cons_neg _ _ _ _ (by simp [isPre, ltEnt]),
        ih]
      rfl
    by_cases h5 : c = aposChar
    · subst h5
      rw [show specEscChar aposChar = aposEnt by decide,
        show (aposEnt ++ s.flatMap specEscChar : List Char)
          = '&' :: '#' :: '3' :: '9' :: ';' :: s.flatMap specEscChar from rfl,
        replaceAll_cons_neg _ _ _ _ (by simp [isPre, ltEnt]),
        replaceAll_cons_neg _ _ _ _ (by simp [isPre, ltEnt]),
        replaceAll_cons_neg _ _ _ _ (by simp [isPre, ltEnt]),
        replaceAll_cons_neg _ _ _ _ (by simp [isPre, ltEnt]),
        replaceAll_cons_neg _ _ _ _ (by simp [isPre, ltEnt]),
        ih]
      rfl
    · have hne : ('&' == c) = false := beq_eq_false_iff_ne.2 (Ne.symm h3)
      rw [show specEscChar c = [c] by
            simp only [specEscChar, if_neg h1, if_neg h2, if_neg h3, if_neg h4, if_neg h5],
        show esc1 c = [c] by
            simp only [esc1, if_neg h2, if_neg h3, if_neg h4, if_neg h5]]
      simp only [List.singleton_append]
      rw [replaceAll_cons_neg _ _ _ _ (by simp [isPre, ltEnt, hne]), ih]

theorem decode_pass2 (s : List Char) :
    replaceAll gtEnt ['>'] (s.flatMap esc1) = s.flatMap esc2 := by
  induction s with
  | nil => rfl
  | cons c s ih =>
    rw [List.flatMap_cons, List.flatMap_cons]
    by_cases h2 : c = '>'
    · subst h2
      rw [show esc1 '>' = gtEnt by decide, replaceAll_exact _ _ _ (by decide), ih]
      rfl
    by_cases h3 : c = '&'
    · subst h3
      rw [show esc1 '&' = ampEnt by decide,
        show (ampEnt ++ s.flatMap esc1 : List Char)
          = '&' :: 'a' :: 'm' :: 'p' :: ';' :: s.flatMap esc1 from rfl,
        replaceAll_cons_neg _ _ _ _ (by simp [isPre, gtEnt]),
        replaceAll_cons_neg _ _ _ _ (by simp [isPre, gtEnt]),
        replaceAll_cons_neg _ _ _ _ (by simp [isPre, gtEnt]),
        replaceAll_cons_neg _ _ _ _ (by simp [isPre, gtEnt]),
        replaceAll_cons_neg _ _ _ _ (by simp [isPre, gtEnt]),
        ih]
      rfl
    by_cases h4 : c = quoteChar
    · subst h4
      rw [show esc1 quoteChar = quotEnt by decide,
        show (quotEnt ++ s.flatMap esc1 : List Char)
          = '&' :: 'q' :: 'u' :: 'o' :: 't' :: ';' :: s.flatMap esc1 from rfl,
        replaceAll_cons_neg _ _ _ _ (by simp [isPre, gtEnt]),
        replaceAll_cons_neg _ _ _ _ (by simp [isPre, gtEnt]),
        replaceAll_cons_neg _ _ _ _ (by simp [isPre, gtEnt]),
        replaceAll_cons_neg _ _ _ _ (by simp [isPre, gtEnt]),
        replaceAll_cons_neg _ _ _ _ (by simp [isPre, gtEnt]),
        replaceAll_cons_neg _ _ _ _ (by simp [isPre, gtEnt]),
        ih]
      rfl
    by_cases h5 : c = aposChar
    · subst h5
      rw [show esc1 aposChar = aposEnt by decide,
        show (aposEnt ++ s.flatMap esc1 : List Char)
          = '&' :: '#' :: '3' :: '9' :: ';' :: s.flatMap esc1 from rfl,
        replaceAll_cons_neg _ _ _ _ (by simp [isPre, gtEnt]),
        replaceAll_cons_neg _ _ _ _ (by simp [isPre, gtEnt]),
        replaceAll_cons_neg _ _ _ _ (by simp [isPre, gtEnt]),
        replaceAll_cons_neg _ _ _ _ (by simp [isPre, gtEnt]),
        replaceAll_cons_neg _ _ _ _ (by simp [isPre, gtEnt]),
        ih]
      rfl
    · have hne : ('&' == c) = false := beq_eq_false_iff_ne.2 (Ne.symm h3)
      rw [show esc1 c = [c] by
            simp only [esc1, if_neg h2, if_neg h3, if_neg h4, if_neg h5],
        show esc2 c = [c] by
            simp only [esc2, if_neg h3, if_neg h4, if_neg h5]]
      simp only [List.singleton_append]
      rw [replaceAll_cons_neg _ _ _ _ (by simp [isPre, gtEnt, hne]), ih]

theorem decode_pass3 (s : List Char) :
    replaceAll ampEnt ['&'] (s.flatMap esc2) = s.flatMap esc3 := by
  induction s with
  | nil => rfl
  | cons c s ih =>
    rw [List.flatMap_cons, List.flatMap_cons]
    by_cases h3 : c = '&'
    · subst h3
      rw [show esc2 '&' = ampEnt by decide, replaceAll_exact _ _ _ (by decide), ih]
      rfl
    by_cases h4 : c = quoteChar
    · subst h4
      rw [show esc2 quoteChar = quotEnt by decide,
        show (quotEnt ++ s.flatMap esc2 : List Char)
          = '&' :: 'q' :: 'u' :: 'o' :: 't' :: ';' :: s.flatMap esc2 from rfl,
        replaceAll_cons_neg _ _ _ _ (by simp [isPre, ampEnt]),
        replaceAll_cons_neg _ _ _ _ (by simp [isPre, ampEnt]),
        replaceAll_cons_neg _ _ _ _ (by simp [isPre, ampEnt]),
        replaceAll_cons_neg _ _ _ _ (by simp [isPre, ampEnt]),
        replaceAll_cons_neg _ _ _ _ (by simp [isPre, ampEnt]),
        replaceAll_cons_neg _ _ _ _ (by simp [isPre, ampEnt]),
        ih]
      rfl
    by_cases h5 : c = aposChar
    · subst h5
      rw [show esc2 aposChar = aposEnt by decide,
        show (aposEnt ++ s.flatMap esc2 : List Char)
          = '&' :: '#' :: '3' :: '9' :: ';' :: s.flatMap esc2 from rfl,
        replaceAll_cons_neg _ _ _ _ (by simp [isPre, ampEnt]),
        replaceAll_cons_neg _ _ _ _ (by simp [isPre, ampEnt]),
        replaceAll_cons_neg _ _ _ _ (by simp [isPre, ampEnt]),
        replaceAll_cons_neg _ _ _ _ (by simp [isPre, ampEnt]),
        replaceAll_cons_neg _ _ _ _ (by simp [isPre, ampEnt]),
        ih]
      rfl
    · have hne : ('&' == c) = false := beq_eq_false_iff_ne.2 (Ne.symm h3)
      rw [show esc2 c = [c] by
            simp only [esc2, if_neg h3, if_neg h4, if_neg h5],
        show esc3 c = [c] by
            simp only [esc3, if_neg h4, if_neg h5]]
      simp only [List.singleton_append]
      rw [replaceAll_cons_neg _ _ _ _ (by simp [isPre, ampEnt, hne]), ih]

theorem isPre_flatMap_esc3 (p : List Char)
    (hp : ∀ c ∈ p, c ≠ quoteChar ∧ c ≠ aposChar ∧ c ≠ '&') :
    ∀ t : List Char, isPre p (t.flatMap esc3) = true → isPre p t = true := by
  induction p with
  | nil => intro t _; rfl
  | cons a as ih =>
    intro t h
    cases t with
    | nil => rw [List.flatMap_nil] at h; exact absurd h (by simp [isPre])
    | cons d t =>
      rw [List.flatMap_cons] at h
      by_cases hd4 : d = quoteChar
      · subst hd4
        rw [show esc3 quoteChar = quotEnt by decide,
          show (quotEnt ++ t.flatMap esc3 : List Char)
            = '&' :: 'q' :: 'u' :: 'o' :: 't' :: ';' :: t.flatMap esc3 from rfl] at h
        rw [isPre, Bool.and_eq_true, beq_iff_eq] at h
        exact absurd h.1 (hp a (List.mem_cons_self a as)).2.2
      by_cases hd5 : d = aposChar
      · subst hd5
        rw [show esc3 aposChar = aposEnt by decide,
          show (aposEnt ++ t.flatMap esc3 : List Char)
            = '&' :: '#' :: '3' :: '9' :: ';' :: t.flatMap esc3 from rfl] at h
        rw [isPre, Bool.and_eq_true, beq_iff_eq] at h
        exact absurd h.1 (hp a (List.mem_cons_self a as)).2.2
      · rw [show esc3 d = [d] by simp only [esc3, if_neg hd4, if_neg hd5],
          List.singleton_append] at h
        rw [isPre, Bool.and_eq_true] at h ⊢
        exact ⟨h.1, ih (fun c hc => hp c (List.mem_cons_of_mem a hc)) t h.2⟩

theorem isPre_flatMap_esc4 (p : List Char)
    (hp : ∀ c ∈ p, c ≠ aposChar ∧ c ≠ '&') :
    ∀ t : List Char, isPre p (t.flatMap esc4) = true → isPre p t = true := by
  induction p with
  | nil => intro t _; rfl
  | cons a as ih =>
    intro t h
    cases t with
    | nil => rw [List.flatMap_nil] at h; exact absurd h (by simp [isPre])
    | cons d t =>
      rw [List.flatMap_cons] at h
      by_cases hd5 : d = aposChar
      · subst hd5
        rw [show esc4 aposChar = aposEnt by decide,
          show (aposEnt ++ t.flatMap esc4 : List Char)
            = '&' :: '#' :: '3' :: '9' :: ';' :: t.flatMap esc4 from rfl] at h
        rw [isPre, Bool.and_eq_true, beq_iff_eq] at h
        exact absurd h.1 (hp a (List.mem_cons_self a as)).2
      · rw [show esc4 d = [d] by simp only [esc4, if_neg hd5],
          List.singleton_append] at h
        rw [isPre, Bool.and_eq_true] at h ⊢
        exact ⟨h.1, ih (fun c hc => hp c (List.mem_cons_of_mem a hc)) t h.2⟩

theorem decode_pass4 (s : List Char) (hsub : containsSub quotEnt s = false) :
    replaceAll quotEnt [quoteChar] (s.flatMap esc3) = s.flatMap esc4 := by
  induction s with
  | nil => rfl
  | cons c s ih =>
    rw [containsSub, Bool.or_eq_false_iff] at hsub
    have ihs := ih hsub.2
    rw [List.flatMap_cons, List.flatMap_cons]
    by_cases h4 : c = quoteChar
    · subst h4
      rw [show esc3 quoteChar = quotEnt by decide, replaceAll_exact _ _ _ (by decide), ihs]
      rfl
    by_cases h5 : c = aposChar
    · subst h5
      rw [show esc3 aposChar = aposEnt by decide,
        show (aposEnt ++ s.flatMap esc3 : List Char)
          = '&' :: '#' :: '3' :: '9' :: ';' :: s.flatMap esc3 from rfl,
        replaceAll_cons_neg _ _ _ _ (by simp [isPre, quotEnt]),
        replaceAll_cons_neg _ _ _ _ (by simp [isPre, quotEnt]),
        replaceAll_cons_neg _ _ _ _ (by simp [isPre, quotEnt]),
        replaceAll_cons_neg _ _ _ _ (by simp [isPre, quotEnt]),
        replaceAll_cons_neg _ _ _ _ (by simp [isPre, quotEnt]),
        ihs]
      rfl
    by_cases h3 : c = '&'
    · subst h3
      have hq : isPre ['q', 'u', 'o', 't', ';'] s = false := by
        have := hsub.1
        rw [← isPre_eq_isPrefixOf] at this
        rw [quotEnt, isPre] at this
        simpa using this
      have hqf : isPre ['q', 'u', 'o', 't', ';'] (s.flatMap esc3) = false := by
        cases hcase : isPre ['q', 'u', 'o', 't', ';'] (s.flatMap esc3) with
        | false => rfl
        | true =>
          have := isPre_flatMap_esc3 ['q', 'u', 'o', 't', ';'] (by decide) s hcase
          rw [hq] at this
          exact absurd this (by decide)
      rw [show esc3 '&' = ['&'] by decide, List.singleton_append,
        replaceAll_cons_neg _ _ _ _ (by simp [isPre, quotEnt, hqf]),
        ihs, show esc4 '&' = ['&'] by decide, List.singleton_append]
    · have hne : ('&' == c) = false := beq_eq_false_iff_ne.2 (Ne.symm h3)
      rw [show esc3 c = [c] by simp only [esc3, if_neg h4, if_neg h5],
        show esc4 c = [c] by simp only [esc4, if_neg h5]]
      simp only [List.singleton_append]
      rw [replaceAll_cons_neg _ _ _ _ (by simp [isPre, quotEnt, hne]), ihs]

theorem decode_pass5 (s : List Char) (hsub : containsSub aposEnt s = false) :
    replaceAll aposEnt [aposChar] (s.flatMap esc4) = s := by
  induction s with
  | nil => rfl
  | cons c s ih =>
    rw [containsSub, Bool.or_eq_false_iff] at hsub
    have ihs := ih hsub.2
    rw [List.flatMap_cons]
    by_cases h5 : c = aposChar
    · subst h5
      rw [show esc4 aposChar = aposEnt by decide, replaceAll_exact _ _ _ (by decide), ihs]
      rfl
    by_cases h3 : c = '&'
    · subst h3
      have hq : isPre ['#', '3', '9', ';'] s = false := by
        have := hsub.1
        rw [← isPre_eq_isPrefixOf] at this
        rw [aposEnt, isPre] at this
        simpa using this
      have hqf : isPre ['#', '3', '9', ';'] (s.flatMap esc4) = false := by
        cases hcase : isPre ['#', '3', '9', ';'] (s.flatMap esc4) with
        | false => rfl
        | true =>
          have := isPre_flatMap_esc4 ['#', '3', '9', ';'] (by decide) s hcase
          rw [hq] at this
          exact absurd this (by decide)
      rw [show esc4 '&' = ['&'] by decide, List.singleton_append,
        replaceAll_cons_neg _ _ _ _ (by simp [isPre, aposEnt, hqf]),
        ihs]
    · have hne : ('&' == c) = false := beq_eq_false_iff_ne.2 (Ne.symm h3)
      rw [show esc4 c = [c] by simp only [esc4, if_neg h5],
        List.singleton_append,
        replaceAll_cons_neg _ _ _ _ (by simp [isPre, aposEnt, hne]),
        ihs]

theorem specEscChar_ne_nil (c : Char) : specEscChar c ≠ [] := by
  unfold specEscChar
  repeat' split
  all_goals simp [ltEnt, gtEnt, ampEnt, quotEnt, aposEnt]

/-- Claim C9: htmlDecode reverses the entity escaping of the five
characters lt, gt, ampersand, double quote, apostrophe.  As stated the
claim is false (the counterexample above); it holds for every string
that does not itself contain the literal substrings that the fourth and
fifth replacement passes rewrite, because the ampersand pass (pass 3)
runs before the quot and #39 passes and can manufacture fresh
occurrences of their patterns. -/
theorem C9_roundtrip_amended (s : List Char)
    (hq : containsSub quotEnt s = false) (ha : containsSub aposEnt s = false) :
    htmlDecode (specHtmlEncode s) = s := by
  cases s with
  | nil => rfl
  | cons c s0 =>
    have hne : specHtmlEncode (c :: s0) ≠ [] := by
      rw [specHtmlEncode, List.flatMap_cons]
      intro h
      exact specEscChar_ne_nil c (List.append_eq_nil.1 h).1
    rw [htmlDecode, if_neg hne, specHtmlEncode,
      decode_pass1, decode_pass2, decode_pass3, decode_pass4 _ hq, decode_pass5 _ ha]

set_option maxRecDepth 10000 in
/-- Claim C9 fails on the literal six-character string consisting of an
ampersand followed by the characters q u o t and a semicolon: the
escaping turns its ampersand into the amp entity, and decoding first
restores the ampersand (pass 3) and then wrongly collapses the
resulting quot entity into a double-quote character (pass 4). -/
theorem C9_counterexample :
    htmlDecode (specHtmlEncode ['&', 'q', 'u', 'o', 't', ';']) = [quoteChar] ∧
    htmlDecode (specHtmlEncode ['&', 'q', 'u', 'o', 't', ';']) ≠ ['&', 'q', 'u', 'o', 't', ';'] := by
  decide

set_option maxRecDepth 10000 in
theorem C9_witness :
    containsSub quotEnt ['a', '<', '>', quoteChar, aposChar, '&', 'z'] = false ∧
    containsSub aposEnt ['a', '<', '>', quoteChar, aposChar, '&', 'z'] = false ∧
    htmlDecode (specHtmlEncode ['a', '<', '>', quoteChar, aposChar, '&', 'z'])
      = ['a', '<', '>', quoteChar, aposChar, '&', 'z'] :=
  ⟨by decide, by decide, C9_roundtrip_amended _ (by decide) (by decide)⟩

end Butler
